import Mathlib

/-!
Shallow embedding of the arcade 2D game runtime (TypeScript sources under
src/lib/engine and the core GameEngine file) and proofs about it.

Numeric values are modelled as rationals (ℚ); the source operates on JS
numbers but no claim under study depends on floating-point rounding or NaN.
JS Map objects are modelled as insertion-ordered association lists with the
same set/delete/forEach semantics.  Behaviors attached to entities are
modelled by the structural-mutation commands their update hooks issue
(`SceneCmd`); the engine itself never attaches behaviors to the entities it
creates, so engine-level scenes run with the empty hook environment.
-/

/-- A value stored in an entity's open data bag (Entity.data in the source).
Only the variants the engine actually stores are modelled. -/
inductive DVal where
  | num (q : ℚ)
  | str (s : String)
  | bool (b : Bool)
  | null
deriving DecidableEq

/-- Insertion-ordered association-list update with JS Map.set semantics:
replace in place when the key exists, append otherwise. -/
def bagSet (bag : List (String × DVal)) (k : String) (v : DVal) : List (String × DVal) :=
  if bag.any (fun p => p.1 = k) then bag.map (fun p => if p.1 = k then (k, v) else p)
  else bag ++ [(k, v)]

/-- Entity record (Entity.ts).  Field defaults mirror the constructor
defaults for the option fields the engine leaves unset. -/
structure Entity where
  id : String
  x : ℚ
  y : ℚ
  width : ℚ
  height : ℚ
  velocityX : ℚ := 0
  velocityY : ℚ := 0
  acceleration : ℚ := 0
  gravity : Option ℚ := none
  friction : Option ℚ := none
  color : String := "#fff"
  solid : Bool := true
  bouncy : Bool := false
  bounceCoefficient : Option ℚ := none
  mass : ℚ := 1
  tags : List String := []
  active : Bool := true
  visible : Bool := true
  onGround : Bool := false
  dataBag : List (String × DVal) := []
deriving DecidableEq

/-- Entity.setData (JS Map.set on the data bag). -/
def Entity.setData (e : Entity) (k : String) (v : DVal) : Entity :=
  { e with dataBag := bagSet e.dataBag k v }

/-- Entity.getData; an absent key is undefined in JS, modelled as none. -/
def Entity.getData (e : Entity) (k : String) : Option DVal :=
  (e.dataBag.find? (fun p => p.1 = k)).map Prod.snd

/-- Entity.hasTag: membership test on the tag list. -/
def Entity.hasTag (e : Entity) (t : String) : Bool := e.tags.contains t

/-- JS truthy-or default for an optional numeric field:
v || d yields d when v is undefined or 0. -/
def jsOr (v : Option ℚ) (d : ℚ) : ℚ :=
  match v with
  | none => d
  | some q => if q = 0 then d else q

/-- Physics configuration (the Physics class constructor defaults). -/
structure PhysicsConfig where
  gravity : ℚ := 1/2
  friction : ℚ := 4/5
  terminalVelocity : ℚ := 10
  defaultBounceCoefficient : ℚ := 3/10
deriving DecidableEq

/-- Physics.update: gravity when airborne, friction (with snap-to-zero below
0.1) when grounded, terminal-velocity clamp, velocity integration into the
position, and demotion of onGround after a downward move of more than 1.
Note the function takes no delta-time argument, exactly as in the source. -/
def physicsUpdate (cfg : PhysicsConfig) (e0 : Entity) : Entity :=
  let previousY := e0.y
  let e1 :=
    if e0.onGround = true then e0
    else { e0 with velocityY := e0.velocityY + e0.gravity.getD cfg.gravity }
  let e2 :=
    if e1.onGround = true then
      let vx := e1.velocityX * e1.friction.getD cfg.friction
      { e1 with velocityX := if |vx| < 1/10 then 0 else vx }
    else e1
  let e3 :=
    if cfg.terminalVelocity < e2.velocityY then { e2 with velocityY := cfg.terminalVelocity }
    else e2
  let e4 := { e3 with x := e3.x + e3.velocityX, y := e3.y + e3.velocityY }
  if 1 < e4.y - previousY ∧ e4.onGround = true then { e4 with onGround := false } else e4

/-- Direction tag of a collision result. -/
inductive CollisionDir where
  | top
  | bottom
  | left
  | right
deriving DecidableEq

/-- CollisionResult record; direction and overlap are optional exactly as in
the source interface. -/
structure CollisionResult where
  collided : Bool
  direction : Option CollisionDir := none
  overlap : Option ℚ := none
deriving DecidableEq

/-- Physics.detectCollision: AABB test, the four penetration depths, minimum
separating axis, with the platform landing bias (direction forced to top for
a downward-moving entity when the top overlap is under half its height). -/
def detectCollision (a b : Entity) : CollisionResult :=
  if a.solid = false ∨ b.solid = false then { collided := false }
  else
    let aLeft := a.x
    let aRight := a.x + a.width
    let aTop := a.y
    let aBottom := a.y + a.height
    let bLeft := b.x
    let bRight := b.x + b.width
    let bTop := b.y
    let bBottom := b.y + b.height
    if aRight ≤ bLeft ∨ aLeft ≥ bRight ∨ aBottom ≤ bTop ∨ aTop ≥ bBottom then
      { collided := false }
    else
      let overlapLeft := aRight - bLeft
      let overlapRight := bRight - aLeft
      let overlapTop := aBottom - bTop
      let overlapBottom := bBottom - aTop
      let minOverlap := min (min overlapLeft overlapRight) (min overlapTop overlapBottom)
      let direction :=
        if b.hasTag "platform" = true ∧ 0 < a.velocityY then
          if overlapTop < a.height / 2 then CollisionDir.top
          else if minOverlap = overlapLeft then CollisionDir.left
          else if minOverlap = overlapRight then CollisionDir.right
          else if minOverlap = overlapBottom then CollisionDir.bottom
          else CollisionDir.top
        else
          if minOverlap = overlapTop then CollisionDir.top
          else if minOverlap = overlapBottom then CollisionDir.bottom
          else if minOverlap = overlapLeft then CollisionDir.left
          else CollisionDir.right
      { collided := true, direction := some direction, overlap := some minOverlap }

/-- Physics.resolveCollision: mutates only the first entity.  The guard
mirrors the JS truthiness test (!result.collided || !result.direction ||
!result.overlap), under which an overlap of 0 aborts resolution. -/
def resolveCollision (cfg : PhysicsConfig) (a b : Entity) (result : CollisionResult) : Entity :=
  match result.collided, result.direction, result.overlap with
  | true, some dir, some ov =>
    if ov = 0 then a
    else
      let bounce :=
        if a.bouncy = true then a.bounceCoefficient.getD cfg.defaultBounceCoefficient else 0
      match dir with
      | CollisionDir.top =>
          if 0 ≤ a.velocityY then
            { a with y := b.y - a.height, velocityY := 0, onGround := true }
          else a
      | CollisionDir.bottom => { a with y := b.y + b.height, velocityY := -a.velocityY * bounce }
      | CollisionDir.left => { a with x := b.x - a.width, velocityX := -a.velocityX * bounce }
      | CollisionDir.right => { a with x := b.x + b.width, velocityX := -a.velocityX * bounce }
  | _, _, _ => a

/-- Penetration depth of a along direction d into b, as computed by
detectCollision (overlapLeft/right/top/bottom). -/
def penetrationDepth (a b : Entity) : CollisionDir → ℚ
  | CollisionDir.left => a.x + a.width - b.x
  | CollisionDir.right => b.x + b.width - a.x
  | CollisionDir.top => a.y + a.height - b.y
  | CollisionDir.bottom => b.y + b.height - a.y

/-- A structural-mutation request issued against the owning scene from inside
an entity's update behavior: a Scene.addEntity or Scene.removeEntity call. -/
inductive SceneCmd where
  | add (e : Entity)
  | remove (id : String)
deriving DecidableEq

/-- JS Map.set on the entity map: replace in place when the id exists,
append otherwise. -/
def entSet (m : List Entity) (e : Entity) : List Entity :=
  if m.any (fun x => x.id = e.id) then m.map (fun x => if x.id = e.id then e else x)
  else m ++ [e]

/-- JS Map.delete on the entity map (ids are unique in reachable maps, so
filtering removes exactly the deleted entry). -/
def entDelete (m : List Entity) (i : String) : List Entity :=
  m.filter (fun x => ¬ x.id = i)

/-- JS Map.get on the entity map. -/
def entGet (m : List Entity) (i : String) : Option Entity :=
  m.find? (fun x => x.id = i)

/-- Membership of an id in the entity map (JS Map.has). -/
def hasId (m : List Entity) (i : String) : Bool :=
  m.any (fun x => x.id = i)

/-- Scene record (Scene.ts).  The Physics instance owned by the scene is its
configuration; Physics itself is stateless. -/
structure Scene where
  name : String := "default"
  entities : List Entity := []
  physics : PhysicsConfig := {}
  backgroundColor : String := "#000"
  entitiesToAdd : List Entity := []
  entitiesToRemove : List String := []
  isUpdating : Bool := false
deriving DecidableEq

/-- Scene.addEntity: queue into the pending-add buffer during an update pass,
otherwise insert immediately. -/
def Scene.addEntity (s : Scene) (e : Entity) : Scene :=
  if s.isUpdating = true then { s with entitiesToAdd := s.entitiesToAdd ++ [e] }
  else { s with entities := entSet s.entities e }

/-- Scene.removeEntity: queue into the pending-remove buffer during an update
pass, otherwise destroy and delete immediately (entity.destroy mutates only
the entity being deleted, which leaves the map, so the deletion captures the
whole observable effect). -/
def Scene.removeEntity (s : Scene) (i : String) : Scene :=
  if s.isUpdating = true then { s with entitiesToRemove := s.entitiesToRemove ++ [i] }
  else { s with entities := entDelete s.entities i }

/-- One structural command dispatched to the scene. -/
def Scene.applyCmd (s : Scene) : SceneCmd → Scene
  | SceneCmd.add e => s.addEntity e
  | SceneCmd.remove i => s.removeEntity i

/-- A sequence of structural commands dispatched in order. -/
def Scene.applyCmds (s : Scene) (cs : List SceneCmd) : Scene :=
  cs.foldl Scene.applyCmd s

/-- The behavior environment: the structural commands the update hooks of the
entity with the given id issue when invoked with the given delta time. -/
def Hooks : Type := String → ℚ → List SceneCmd

/-- The empty behavior environment: no entity has update behaviors.  This is
the environment of every engine-built scene (the engine attaches no
behaviors). -/
def noHooks : Hooks := fun _ _ => []

/-- One iteration of the first forEach of Scene.update: if the entity is
active, run its update behaviors (whose Scene.addEntity/removeEntity calls
hit the pending buffers because isUpdating is true) and append its id to the
platform or the other partition. -/
def collectStep (hooks : Hooks) (dt : ℚ) (acc : Scene × List String × List String)
    (e : Entity) : Scene × List String × List String :=
  if e.active = true then
    let s1 := Scene.applyCmds acc.1 (hooks e.id dt)
    if e.hasTag "platform" = true then (s1, acc.2.1, acc.2.2 ++ [e.id])
    else (s1, acc.2.1 ++ [e.id], acc.2.2)
  else acc

/-- The first forEach of Scene.update over the whole entity map, in map
order (the source keeps object references; ids identify the same live
objects here). -/
def collectPass (hooks : Hooks) (dt : ℚ) (s : Scene) : Scene × List String × List String :=
  s.entities.foldl (collectStep hooks dt) (s, ([], []))

/-- Physics.checkCollisions for one moving entity a against a candidate list
(identified by id, read live from the entity map m): skip self, detect,
resolve.  Only a is mutated, exactly as resolveCollision only writes its
first argument. -/
def checkCollisionsLive (cfg : PhysicsConfig) (m : List Entity) (a : Entity)
    (others : List String) : Entity :=
  others.foldl
    (fun acc oid =>
      if oid = acc.id then acc
      else
        match entGet m oid with
        | none => acc
        | some b =>
          let r := detectCollision acc b
          if r.collided = true then resolveCollision cfg acc b r else acc)
    a

/-- The second forEach of Scene.update: for each non-platform active entity in
order, apply Physics.update, then collision checks against the other
non-platform entities and against the platforms.  Because the source mutates
shared objects, writes to earlier entities are visible while later entities
are processed; the fold threads the entity map accordingly. -/
def physicsStep (cfg : PhysicsConfig) (physIds platIds : List String)
    (m : List Entity) (i : String) : List Entity :=
  match entGet m i with
  | none => m
  | some e =>
    let e1 := physicsUpdate cfg e
    let e2 := checkCollisionsLive cfg m e1 physIds
    let e3 := checkCollisionsLive cfg m e2 platIds
    entSet m e3

/-- The whole physics forEach: fold physicsStep over the non-platform ids. -/
def physicsPass (cfg : PhysicsConfig) (physIds platIds : List String)
    (m0 : List Entity) : List Entity :=
  physIds.foldl (physicsStep cfg physIds platIds) m0

/-- Scene.processPendingEntities: drain the pending-add buffer then the
pending-remove buffer, popping from the end of each (Array.pop). -/
def Scene.processPendingEntities (s : Scene) : Scene :=
  let m1 := s.entitiesToAdd.reverse.foldl entSet s.entities
  let m2 := s.entitiesToRemove.reverse.foldl entDelete m1
  { s with entities := m2, entitiesToAdd := [], entitiesToRemove := [] }

/-- Scene.update: raise isUpdating, run the entity-update/partition loop, run
the physics pass, lower isUpdating, then drain the pending buffers. -/
def Scene.update (hooks : Hooks) (dt : ℚ) (s : Scene) : Scene :=
  let res := collectPass hooks dt { s with isUpdating := true }
  let m := physicsPass s.physics res.2.1 res.2.2 res.1.entities
  Scene.processPendingEntities { res.1 with entities := m, isUpdating := false }

/-- Scene.clear: destroy every entity (observable only on the entities, which
all leave the map) and empty the map and both pending buffers. -/
def Scene.clear (s : Scene) : Scene :=
  { s with entities := [], entitiesToAdd := [], entitiesToRemove := [] }

/-- Scene.getEntitiesByTag: linear scan in map order. -/
def Scene.getEntitiesByTag (s : Scene) (t : String) : List Entity :=
  s.entities.filter (fun e => e.hasTag t)

/-- Scene.hasEntity. -/
def Scene.hasEntity (s : Scene) (i : String) : Bool :=
  hasId s.entities i

/-- Scene.getEntityCount. -/
def Scene.getEntityCount (s : Scene) : Nat :=
  s.entities.length

/-- Structural commands issued by the update hooks of the active entities of
a list, in list order. -/
def cmdsOfList (hooks : Hooks) (dt : ℚ) : List Entity → List SceneCmd
  | [] => []
  | e :: l => (if e.active = true then hooks e.id dt else []) ++ cmdsOfList hooks dt l

/-- All structural commands issued during one update pass, in issue order:
the update hooks of the active entities, in map order. -/
def passCmds (hooks : Hooks) (dt : ℚ) (s : Scene) : List SceneCmd :=
  cmdsOfList hooks dt s.entities

/-- The entities the commands of a pass queue for addition, in issue order. -/
def addsOf (cs : List SceneCmd) : List Entity :=
  cs.filterMap (fun c => match c with | SceneCmd.add e => some e | _ => none)

/-- The ids the commands of a pass queue for removal, in issue order. -/
def remsOf (cs : List SceneCmd) : List String :=
  cs.filterMap (fun c => match c with | SceneCmd.remove i => some i | _ => none)

/-- Ids of the active non-platform entities of a scene, in map order: the
pass's physics-entity list. -/
def activeOtherIds (s : Scene) : List String :=
  (s.entities.filter (fun e => e.active && !(e.hasTag "platform"))).map Entity.id

/-- Ids of the active platform-tagged entities of a scene, in map order: the
pass's platform list. -/
def activePlatformIds (s : Scene) : List String :=
  (s.entities.filter (fun e => e.active && e.hasTag "platform")).map Entity.id

theorem hasId_iff (m : List Entity) (j : String) :
    hasId m j = true ↔ ∃ x ∈ m, x.id = j := by
  simp [hasId]

theorem replace_preserves_id (e x : Entity) :
    ((if x.id = e.id then e else x) : Entity).id = x.id := by
  by_cases h : x.id = e.id <;> simp [h]

theorem entGet_some_id (m : List Entity) (i : String) (e : Entity)
    (h : entGet m i = some e) : e.id = i := by
  unfold entGet at h
  have := List.find?_some h
  simpa using this

theorem entGet_some_mem (m : List Entity) (i : String) (e : Entity)
    (h : entGet m i = some e) : e ∈ m := by
  unfold entGet at h
  exact List.mem_of_find?_eq_some h

theorem entGet_isSome_hasId (m : List Entity) (i : String) (e : Entity)
    (h : entGet m i = some e) : hasId m i = true := by
  rw [hasId_iff]
  exact ⟨e, entGet_some_mem m i e h, entGet_some_id m i e h⟩

theorem hasId_entSet_iff (m : List Entity) (e : Entity) (j : String) :
    hasId (entSet m e) j = true ↔ (hasId m j = true ∨ e.id = j) := by
  unfold entSet
  by_cases hp : (m.any fun x => decide (x.id = e.id)) = true
  · rw [if_pos hp]
    have hmem : ∃ x ∈ m, x.id = e.id := by simpa using hp
    rw [hasId_iff, hasId_iff]
    constructor
    · rintro ⟨x, hx, hid⟩
      rcases List.mem_map.mp hx with ⟨y, hy, rfl⟩
      rw [replace_preserves_id] at hid
      exact Or.inl ⟨y, hy, hid⟩
    · rintro (⟨x, hx, hid⟩ | hid)
      · refine ⟨(if x.id = e.id then e else x), List.mem_map_of_mem _ hx, ?_⟩
        rw [replace_preserves_id]; exact hid
      · rcases hmem with ⟨y, hy, hyid⟩
        refine ⟨(if y.id = e.id then e else y), List.mem_map_of_mem _ hy, ?_⟩
        rw [replace_preserves_id]; rw [hyid]; exact hid
  · rw [if_neg hp]
    rw [hasId_iff, hasId_iff]
    simp only [List.mem_append, List.mem_singleton]
    constructor
    · rintro ⟨x, hx | hx, hid⟩
      · exact Or.inl ⟨x, hx, hid⟩
      · subst hx; exact Or.inr hid
    · rintro (⟨x, hx, hid⟩ | hid)
      · exact ⟨x, Or.inl hx, hid⟩
      · exact ⟨e, Or.inr rfl, hid⟩

theorem hasId_entDelete_iff (m : List Entity) (i j : String) :
    hasId (entDelete m i) j = true ↔ (hasId m j = true ∧ j ≠ i) := by
  unfold entDelete
  rw [hasId_iff, hasId_iff]
  constructor
  · rintro ⟨x, hx, hid⟩
    rcases List.mem_filter.mp hx with ⟨hxm, hcond⟩
    refine ⟨⟨x, hxm, hid⟩, ?_⟩
    intro hji
    subst hji
    simp [hid] at hcond
  · rintro ⟨⟨x, hx, hid⟩, hji⟩
    refine ⟨x, List.mem_filter.mpr ⟨hx, ?_⟩, hid⟩
    simp [hid, hji]

theorem hasId_foldl_entSet_iff (l : List Entity) (m : List Entity) (j : String) :
    hasId (l.foldl entSet m) j = true ↔ (hasId m j = true ∨ ∃ e ∈ l, e.id = j) := by
  induction l generalizing m with
  | nil => simp
  | cons e l ih =>
    rw [List.foldl_cons, ih, hasId_entSet_iff]
    simp only [List.mem_cons]
    constructor
    · rintro ((h | h) | ⟨x, hx, hid⟩)
      · exact Or.inl h
      · exact Or.inr ⟨e, Or.inl rfl, h⟩
      · exact Or.inr ⟨x, Or.inr hx, hid⟩
    · rintro (h | ⟨x, hx | hx, hid⟩)
      · exact Or.inl (Or.inl h)
      · subst hx; exact Or.inl (Or.inr hid)
      · exact Or.inr ⟨x, hx, hid⟩

theorem hasId_foldl_entDelete_iff (l : List String) (m : List Entity) (j : String) :
    hasId (l.foldl entDelete m) j = true ↔ (hasId m j = true ∧ j ∉ l) := by
  induction l generalizing m with
  | nil => simp
  | cons i l ih =>
    rw [List.foldl_cons, ih, hasId_entDelete_iff]
    simp only [List.mem_cons]
    tauto

theorem physicsUpdate_id (cfg : PhysicsConfig) (e : Entity) :
    (physicsUpdate cfg e).id = e.id := by
  simp only [physicsUpdate]
  repeat' split
  all_goals rfl

theorem resolveCollision_id (cfg : PhysicsConfig) (a b : Entity) (r : CollisionResult) :
    (resolveCollision cfg a b r).id = a.id := by
  rcases r with ⟨c, d, o⟩
  rcases c <;> rcases d with _ | d <;> rcases o with _ | o <;>
    simp only [resolveCollision] <;> try rfl
  split
  · rfl
  · rcases d <;> simp only [] <;> try rfl
    split <;> rfl

theorem checkCollisionsLive_id (cfg : PhysicsConfig) (m : List Entity) (a : Entity)
    (others : List String) : (checkCollisionsLive cfg m a others).id = a.id := by
  induction others generalizing a with
  | nil => rfl
  | cons o os ih =>
    unfold checkCollisionsLive at *
    rw [List.foldl_cons]
    rw [ih]
    by_cases h : o = a.id
    · simp [h]
    · rw [if_neg h]
      cases entGet m o with
      | none => rfl
      | some b =>
        simp only []
        split
        · exact resolveCollision_id cfg a b _
        · rfl

theorem entGet_map_replace_ne (m : List Entity) (e : Entity) (j : String) (h : ¬ e.id = j) :
    entGet (m.map (fun x => if x.id = e.id then e else x)) j = entGet m j := by
  induction m with
  | nil => rfl
  | cons x xs ih =>
    simp only [List.map_cons]
    unfold entGet at ih ⊢
    by_cases hx : x.id = e.id
    · have hxj : ¬ x.id = j := fun hj => h (hx ▸ hj)
      simp [List.find?_cons, hx, hxj, h, ih]
    · by_cases hxj : x.id = j
      · have hje : ¬ j = e.id := fun hh => hx (by rw [hxj]; exact hh)
        simp [List.find?_cons, hx, hxj, hje]
      · simp [List.find?_cons, hx, hxj, ih]

theorem entGet_append_single_ne (m : List Entity) (e : Entity) (j : String)
    (h : ¬ e.id = j) : entGet (m ++ [e]) j = entGet m j := by
  unfold entGet
  induction m with
  | nil => simp [List.find?_cons, h]
  | cons x xs ih =>
    by_cases hxj : x.id = j <;> simp [List.find?_cons, hxj, ih]

theorem entGet_entSet_ne (m : List Entity) (e : Entity) (j : String) (h : ¬ e.id = j) :
    entGet (entSet m e) j = entGet m j := by
  unfold entSet
  split
  · exact entGet_map_replace_ne m e j h
  · exact entGet_append_single_ne m e j h

theorem entGet_physicsStep_ne (cfg : PhysicsConfig) (pI plI : List String)
    (m : List Entity) (i j : String) (h : ¬ i = j) :
    entGet (physicsStep cfg pI plI m i) j = entGet m j := by
  unfold physicsStep
  cases he : entGet m i with
  | none => rfl
  | some e =>
    simp only []
    apply entGet_entSet_ne
    rw [checkCollisionsLive_id, checkCollisionsLive_id, physicsUpdate_id,
      entGet_some_id m i e he]
    exact h

theorem entGet_foldl_physicsStep_not_mem (cfg : PhysicsConfig) (pI plI : List String)
    (l : List String) (m : List Entity) (j : String) (hj : j ∉ l) :
    entGet (l.foldl (physicsStep cfg pI plI) m) j = entGet m j := by
  induction l generalizing m with
  | nil => rfl
  | cons i is ih =>
    rw [List.foldl_cons]
    have hij : ¬ i = j := fun hh => hj (hh ▸ List.mem_cons_self i is)
    rw [ih (physicsStep cfg pI plI m i) (fun hmem => hj (List.mem_cons_of_mem _ hmem)),
      entGet_physicsStep_ne cfg pI plI m i j hij]

theorem entGet_physicsPass_not_mem (cfg : PhysicsConfig) (pI plI : List String)
    (m : List Entity) (j : String) (hj : j ∉ pI) :
    entGet (physicsPass cfg pI plI m) j = entGet m j :=
  entGet_foldl_physicsStep_not_mem cfg pI plI pI m j hj

theorem hasId_physicsStep (cfg : PhysicsConfig) (pI plI : List String)
    (m : List Entity) (i j : String) :
    hasId (physicsStep cfg pI plI m i) j = hasId m j := by
  unfold physicsStep
  cases he : entGet m i with
  | none => rfl
  | some e =>
    simp only []
    have hm : hasId m i = true := entGet_isSome_hasId m i e he
    have hid3 : (checkCollisionsLive cfg m
        (checkCollisionsLive cfg m (physicsUpdate cfg e) pI) plI).id = i := by
      rw [checkCollisionsLive_id, checkCollisionsLive_id, physicsUpdate_id,
        entGet_some_id m i e he]
    have hiff : hasId (entSet m (checkCollisionsLive cfg m
        (checkCollisionsLive cfg m (physicsUpdate cfg e) pI) plI)) j = true ↔
        hasId m j = true := by
      rw [hasId_entSet_iff, hid3]
      constructor
      · rintro (hh | hh)
        · exact hh
        · exact hh ▸ hm
      · exact Or.inl
    rcases Bool.eq_false_or_eq_true (hasId m j) with h2 | h2 <;>
      rcases Bool.eq_false_or_eq_true (hasId (entSet m (checkCollisionsLive cfg m
        (checkCollisionsLive cfg m (physicsUpdate cfg e) pI) plI)) j) with h1 | h1 <;>
      simp [h1, h2] at hiff ⊢

theorem hasId_foldl_physicsStep (cfg : PhysicsConfig) (pI plI : List String)
    (l : List String) (m : List Entity) (j : String) :
    hasId (l.foldl (physicsStep cfg pI plI) m) j = hasId m j := by
  induction l generalizing m with
  | nil => rfl
  | cons i is ih => rw [List.foldl_cons, ih, hasId_physicsStep]

theorem hasId_physicsPass (cfg : PhysicsConfig) (pI plI : List String)
    (m : List Entity) (j : String) :
    hasId (physicsPass cfg pI plI m) j = hasId m j :=
  hasId_foldl_physicsStep cfg pI plI pI m j

theorem addsOf_append (c1 c2 : List SceneCmd) :
    addsOf (c1 ++ c2) = addsOf c1 ++ addsOf c2 := by
  simp [addsOf]

theorem remsOf_append (c1 c2 : List SceneCmd) :
    remsOf (c1 ++ c2) = remsOf c1 ++ remsOf c2 := by
  simp [remsOf]

theorem applyCmd_updating (s : Scene) (c : SceneCmd) (h : s.isUpdating = true) :
    s.applyCmd c = { s with entitiesToAdd := s.entitiesToAdd ++ addsOf [c],
                            entitiesToRemove := s.entitiesToRemove ++ remsOf [c] } := by
  cases c <;> simp [Scene.applyCmd, Scene.addEntity, Scene.removeEntity, h, addsOf, remsOf]

theorem applyCmds_append (s : Scene) (c1 c2 : List SceneCmd) :
    s.applyCmds (c1 ++ c2) = (s.applyCmds c1).applyCmds c2 := by
  simp [Scene.applyCmds, List.foldl_append]

theorem applyCmds_updating (s : Scene) (cs : List SceneCmd) (h : s.isUpdating = true) :
    s.applyCmds cs = { s with entitiesToAdd := s.entitiesToAdd ++ addsOf cs,
                              entitiesToRemove := s.entitiesToRemove ++ remsOf cs } := by
  induction cs generalizing s with
  | nil => simp [Scene.applyCmds, addsOf, remsOf]
  | cons c cs ih =>
    have hstep : Scene.applyCmds s (c :: cs) = Scene.applyCmds (s.applyCmd c) cs := by
      simp [Scene.applyCmds]
    rw [hstep, ih (s.applyCmd c) (by rw [applyCmd_updating s c h]; exact h),
      applyCmd_updating s c h]
    have hadds : addsOf (c :: cs) = addsOf [c] ++ addsOf cs := by
      have : (c :: cs) = [c] ++ cs := rfl
      rw [this, addsOf_append]
    have hrems : remsOf (c :: cs) = remsOf [c] ++ remsOf cs := by
      have : (c :: cs) = [c] ++ cs := rfl
      rw [this, remsOf_append]
    simp [hadds, hrems]

theorem collectStep_active_platform (hooks : Hooks) (dt : ℚ) (s : Scene)
    (xs ys : List String) (e : Entity) (hact : e.active = true)
    (hplat : e.hasTag "platform" = true) :
    collectStep hooks dt (s, (xs, ys)) e = (s.applyCmds (hooks e.id dt), (xs, ys ++ [e.id])) := by
  simp [collectStep, hact, hplat]

theorem collectStep_active_other (hooks : Hooks) (dt : ℚ) (s : Scene)
    (xs ys : List String) (e : Entity) (hact : e.active = true)
    (hplat : ¬ e.hasTag "platform" = true) :
    collectStep hooks dt (s, (xs, ys)) e = (s.applyCmds (hooks e.id dt), (xs ++ [e.id], ys)) := by
  simp [collectStep, hact, hplat]

theorem collectStep_inactive (hooks : Hooks) (dt : ℚ) (s : Scene)
    (xs ys : List String) (e : Entity) (hact : ¬ e.active = true) :
    collectStep hooks dt (s, (xs, ys)) e = (s, (xs, ys)) := by
  simp [collectStep, hact]

theorem cmdsOfList_cons_active (hooks : Hooks) (dt : ℚ) (e : Entity) (l : List Entity)
    (hact : e.active = true) :
    cmdsOfList hooks dt (e :: l) = hooks e.id dt ++ cmdsOfList hooks dt l := by
  simp [cmdsOfList, hact]

theorem cmdsOfList_cons_inactive (hooks : Hooks) (dt : ℚ) (e : Entity) (l : List Entity)
    (hact : ¬ e.active = true) :
    cmdsOfList hooks dt (e :: l) = cmdsOfList hooks dt l := by
  simp [cmdsOfList, hact]

theorem collectPass_go (hooks : Hooks) (dt : ℚ) (l : List Entity) (s : Scene)
    (xs ys : List String) :
    l.foldl (collectStep hooks dt) (s, (xs, ys)) =
      (s.applyCmds (cmdsOfList hooks dt l),
        xs ++ ((l.filter fun e => e.active && !(e.hasTag "platform")).map Entity.id),
        ys ++ ((l.filter fun e => e.active && e.hasTag "platform").map Entity.id)) := by
  induction l generalizing s xs ys with
  | nil => simp [cmdsOfList, Scene.applyCmds]
  | cons e l ih =>
    rw [List.foldl_cons]
    by_cases hact : e.active = true
    · rw [cmdsOfList_cons_active hooks dt e l hact, applyCmds_append]
      by_cases hplat : e.hasTag "platform" = true
      · rw [collectStep_active_platform hooks dt s xs ys e hact hplat, ih]
        simp [List.filter_cons, hact, hplat]
      · rw [collectStep_active_other hooks dt s xs ys e hact hplat, ih]
        simp [List.filter_cons, hact, hplat]
    · rw [cmdsOfList_cons_inactive hooks dt e l hact,
        collectStep_inactive hooks dt s xs ys e hact, ih]
      simp [List.filter_cons, hact]

theorem sceneUpdate_char (hooks : Hooks) (dt : ℚ) (s : Scene)
    (h2 : s.entitiesToAdd = [])
    (h3 : s.entitiesToRemove = []) :
    Scene.update hooks dt s = { s with
      entities := (remsOf (passCmds hooks dt s)).reverse.foldl entDelete
        ((addsOf (passCmds hooks dt s)).reverse.foldl entSet
          (physicsPass s.physics (activeOtherIds s) (activePlatformIds s) s.entities)),
      entitiesToAdd := [], entitiesToRemove := [], isUpdating := false } := by
  unfold Scene.update
  have hcp : collectPass hooks dt { s with isUpdating := true } =
      ({ s with isUpdating := true, entitiesToAdd := addsOf (passCmds hooks dt s), entitiesToRemove := remsOf (passCmds hooks dt s) },
        activeOtherIds s, activePlatformIds s) := by
    unfold collectPass
    rw [show ({ s with isUpdating := true } : Scene).entities = s.entities from rfl]
    rw [collectPass_go, applyCmds_updating _ _ rfl]
    simp [activeOtherIds, activePlatformIds, passCmds, h2, h3]
  rw [hcp]
  unfold Scene.processPendingEntities
  rfl

/-- C1: during Scene.update, additions and removals requested from inside an
entity's update behavior are queued into the pending buffers, the entity map
iterated by the in-progress pass stays unchanged for the whole pass, and
immediately after the pass the queued additions are present and the queued
removals absent (a removal wins over an addition of the same id, since the
removal buffer drains last); the update is a total function, so no call can
throw.  The buffers are empty again after the pass. -/
theorem scene_structural_mutation_deferred (hooks : Hooks) (dt : ℚ) (s : Scene)
    (h1 : s.isUpdating = false) (h2 : s.entitiesToAdd = [])
    (h3 : s.entitiesToRemove = []) :
    (collectPass hooks dt { s with isUpdating := true }).1.entities = s.entities
    ∧ (∀ j, (Scene.update hooks dt s).hasEntity j = true ↔
        ((s.hasEntity j = true ∨ ∃ e ∈ addsOf (passCmds hooks dt s), e.id = j)
          ∧ j ∉ remsOf (passCmds hooks dt s)))
    ∧ (Scene.update hooks dt s).entitiesToAdd = []
    ∧ (Scene.update hooks dt s).entitiesToRemove = [] := by
  have hchar := sceneUpdate_char hooks dt s h2 h3
  refine ⟨?_, ?_, ?_, ?_⟩
  · unfold collectPass
    rw [show ({ s with isUpdating := true } : Scene).entities = s.entities from rfl]
    rw [collectPass_go, applyCmds_updating _ _ rfl]
  · intro j
    rw [hchar]
    show hasId _ j = true ↔ _
    rw [hasId_foldl_entDelete_iff, hasId_foldl_entSet_iff, hasId_physicsPass]
    simp only [List.mem_reverse]
    constructor
    · rintro ⟨h, hr⟩; exact ⟨h, hr⟩
    · rintro ⟨h, hr⟩; exact ⟨h, hr⟩
  · rw [hchar]
  · rw [hchar]

/-- Two concrete entities for exercising structural mutation during update. -/
def c1EntA : Entity := { id := "a", x := 0, y := 0, width := 1, height := 1 }

/-- Second concrete entity, queued for removal from inside the pass. -/
def c1EntB : Entity := { id := "b", x := 50, y := 0, width := 1, height := 1 }

/-- Entity queued for addition from inside the pass. -/
def c1EntC : Entity := { id := "c", x := 90, y := 0, width := 1, height := 1 }

/-- Behavior environment in which the update hook of entity a removes b and
adds c. -/
def c1Hooks : Hooks :=
  fun i _ => if i = "a" then [SceneCmd.remove "b", SceneCmd.add c1EntC] else []

/-- Concrete scene holding a and b. -/
def c1Scene : Scene := { entities := [c1EntA, c1EntB] }

/-- Witness for C1 at a concrete scene: after the pass the entity added from
inside the pass is present and the entity removed from inside the pass is
absent. -/
theorem scene_structural_mutation_deferred_witness :
    (Scene.update c1Hooks 1 c1Scene).hasEntity "c" = true
    ∧ (Scene.update c1Hooks 1 c1Scene).hasEntity "b" = false := by
  have h := scene_structural_mutation_deferred c1Hooks 1 c1Scene rfl rfl rfl
  constructor
  · exact (h.2.1 "c").mpr (by decide)
  · cases hb : (Scene.update c1Hooks 1 c1Scene).hasEntity "b" with
    | false => rfl
    | true =>
      have hm := (h.2.1 "b").mp hb
      exact absurd (by decide : "b" ∈ remsOf (passCmds c1Hooks 1 c1Scene)) hm.2

theorem cmdsOfList_noHooks (dt : ℚ) (l : List Entity) : cmdsOfList noHooks dt l = [] := by
  induction l with
  | nil => rfl
  | cons e l ih => simp [cmdsOfList, noHooks, ih]

theorem sceneUpdate_noHooks (dt : ℚ) (s : Scene)
    (h2 : s.entitiesToAdd = []) (h3 : s.entitiesToRemove = []) :
    Scene.update noHooks dt s = { s with
      entities := physicsPass s.physics (activeOtherIds s) (activePlatformIds s) s.entities,
      entitiesToAdd := [], entitiesToRemove := [], isUpdating := false } := by
  rw [sceneUpdate_char noHooks dt s h2 h3]
  simp [passCmds, cmdsOfList_noHooks, addsOf, remsOf]

theorem checkCollisionsLive_self (cfg : PhysicsConfig) (m : List Entity) (a : Entity)
    (i : String) (h : i = a.id) : checkCollisionsLive cfg m a [i] = a := by
  unfold checkCollisionsLive
  simp [h]

theorem entSet_singleton_same (e f : Entity) (h : f.id = e.id) : entSet [e] f = [f] := by
  unfold entSet
  simp [h.symm]

theorem physicsPass_singleton (cfg : PhysicsConfig) (e : Entity) :
    physicsPass cfg [e.id] [] [e] = [physicsUpdate cfg e] := by
  unfold physicsPass
  rw [List.foldl_cons, List.foldl_nil]
  unfold physicsStep
  have hget : entGet [e] e.id = some e := by simp [entGet]
  rw [hget]
  simp only []
  rw [checkCollisionsLive_self cfg [e] (physicsUpdate cfg e) e.id (physicsUpdate_id cfg e).symm]
  rw [show checkCollisionsLive cfg [e] (physicsUpdate cfg e) [] = physicsUpdate cfg e from rfl]
  exact entSet_singleton_same e (physicsUpdate cfg e) (physicsUpdate_id cfg e)

/-- C2 (amended): the physics pass of Scene.update takes no delta-time
argument, so Scene.update(0) applies the full physics step rather than a
no-op integration: for a scene holding one active non-platform entity the
result is exactly the Physics.update of that entity, and Scene.update with
delta 0 coincides with Scene.update at every other delta (same collision
pass, same mutations). -/
theorem sceneUpdate_zero_delta_full_physics (s : Scene) (e : Entity) (dt : ℚ)
    (hent : s.entities = [e]) (hact : e.active = true)
    (hplat : e.hasTag "platform" = false)
    (h2 : s.entitiesToAdd = []) (h3 : s.entitiesToRemove = []) :
    (Scene.update noHooks 0 s).entities = [physicsUpdate s.physics e]
    ∧ Scene.update noHooks dt s = Scene.update noHooks 0 s := by
  have hids : activeOtherIds s = [e.id] := by
    simp [activeOtherIds, hent, hact, hplat]
  have hids2 : activePlatformIds s = [] := by
    simp [activePlatformIds, hent, hact, hplat]
  constructor
  · rw [sceneUpdate_noHooks 0 s h2 h3]
    rw [show ({ s with
      entities := physicsPass s.physics (activeOtherIds s) (activePlatformIds s) s.entities,
      entitiesToAdd := ([] : List Entity), entitiesToRemove := ([] : List String),
      isUpdating := false } : Scene).entities =
        physicsPass s.physics (activeOtherIds s) (activePlatformIds s) s.entities from rfl]
    rw [hids, hids2, hent, physicsPass_singleton]
  · rw [sceneUpdate_noHooks dt s h2 h3, sceneUpdate_noHooks 0 s h2 h3]

/-- Concrete entity whose x moves under a zero-delta update. -/
def c2Ent : Entity :=
  { id := "e", x := 100, y := 50, width := 10, height := 10, velocityX := 1, gravity := some 0 }

/-- Concrete scene for the zero-delta counterexample. -/
def c2Scene : Scene := { entities := [c2Ent] }

/-- C2 counterexample: Scene.update with delta 0 changes the x position of an
entity with nonzero velocity (100 becomes 101), so a zero delta does not
leave entity positions unchanged. -/
theorem sceneUpdate_zero_delta_counterexample :
    (Scene.update noHooks 0 c2Scene).entities.map Entity.x = [101]
    ∧ c2Scene.entities.map Entity.x = [100] ∧ (101 : ℚ) ≠ 100 := by
  have h : (Scene.update noHooks 0 c2Scene).entities = [physicsUpdate c2Scene.physics c2Ent] := by
    rw [sceneUpdate_noHooks 0 c2Scene rfl rfl]
    rw [show activeOtherIds c2Scene = [c2Ent.id] from rfl,
      show activePlatformIds c2Scene = [] from rfl,
      show c2Scene.entities = [c2Ent] from rfl]
    exact physicsPass_singleton c2Scene.physics c2Ent
  rw [h]
  refine ⟨?_, rfl, by norm_num⟩
  have hx : (physicsUpdate c2Scene.physics c2Ent).x = 101 := by
    simp [physicsUpdate, c2Ent, c2Scene]
    norm_num
  simp [hx]

/-- Witness for the amended C2 theorem at the same concrete scene. -/
theorem sceneUpdate_zero_delta_full_physics_witness :
    (Scene.update noHooks 0 c2Scene).entities = [physicsUpdate c2Scene.physics c2Ent]
    ∧ Scene.update noHooks 7 c2Scene = Scene.update noHooks 0 c2Scene :=
  sceneUpdate_zero_delta_full_physics c2Scene c2Ent 7 rfl rfl rfl rfl rfl

theorem detectCollision_pos_overlap (a b : Entity) (d : CollisionDir)
    (hd : (detectCollision a b).direction = some d) :
    (detectCollision a b).collided = true ∧
    ∃ ov, (detectCollision a b).overlap = some ov ∧ 0 < ov := by
  by_cases hsolid : a.solid = false ∨ b.solid = false
  · simp only [detectCollision] at hd
    rw [if_pos hsolid] at hd
    simp at hd
  · by_cases hno : a.x + a.width ≤ b.x ∨ a.x ≥ b.x + b.width ∨
        a.y + a.height ≤ b.y ∨ a.y ≥ b.y + b.height
    · simp only [detectCollision] at hd
      rw [if_neg hsolid, if_pos hno] at hd
      simp at hd
    · push_neg at hno
      obtain ⟨p1, p2, p3, p4⟩ := hno
      simp only [detectCollision]
      rw [if_neg hsolid]
      rw [if_neg (by push_neg; exact ⟨p1, p2, p3, p4⟩)]
      refine ⟨rfl, min (min (a.x + a.width - b.x) (b.x + b.width - a.x))
        (min (a.y + a.height - b.y) (b.y + b.height - a.y)), rfl, ?_⟩
      have q1 : 0 < a.x + a.width - b.x := by linarith
      have q2 : 0 < b.x + b.width - a.x := by linarith
      have q3 : 0 < a.y + a.height - b.y := by linarith
      have q4 : 0 < b.y + b.height - a.y := by linarith
      simp only [lt_min_iff]
      exact ⟨⟨q1, q2⟩, q3, q4⟩

/-- C4: when detectCollision reports direction top, resolveCollision clamps a
onto the top of b, zeroes vertical velocity and sets onGround exactly when a
was moving downward or stationary, and leaves a entirely unchanged when a
was moving upward. -/
theorem resolveCollision_top_claim (cfg : PhysicsConfig) (a b : Entity)
    (hd : (detectCollision a b).direction = some CollisionDir.top) :
    (0 ≤ a.velocityY →
      resolveCollision cfg a b (detectCollision a b)
        = { a with y := b.y - a.height, velocityY := 0, onGround := true })
    ∧ (a.velocityY < 0 → resolveCollision cfg a b (detectCollision a b) = a) := by
  obtain ⟨hc, ov, hov, hpos⟩ := detectCollision_pos_overlap a b CollisionDir.top hd
  have hne : ¬ ov = 0 := ne_of_gt hpos
  constructor
  · intro hv
    simp only [resolveCollision, hc, hd, hov]
    rw [if_neg hne, if_pos hv]
  · intro hv
    have hnv : ¬ 0 ≤ a.velocityY := not_le.mpr hv
    simp only [resolveCollision, hc, hd, hov]
    rw [if_neg hne, if_neg hnv]

/-- Concrete falling entity for the top-resolution witness. -/
def c4A : Entity := { id := "a", x := 0, y := 0, width := 10, height := 10, velocityY := 5 }

/-- Concrete platform entity for the top-resolution witness. -/
def c4B : Entity := { id := "b", x := -20, y := 8, width := 50, height := 10, tags := ["platform"] }

/-- Witness for C4: a concrete downward-moving entity overlapping a platform
from above is clamped onto its surface with zero vertical velocity and
onGround set. -/
theorem resolveCollision_top_claim_witness :
    resolveCollision {} c4A c4B (detectCollision c4A c4B)
      = { c4A with y := c4B.y - c4A.height, velocityY := 0, onGround := true } :=
  (resolveCollision_top_claim {} c4A c4B
    (by norm_num [detectCollision, Entity.hasTag, c4A, c4B, min_def])).1
    (by norm_num [c4A])

/-- C5: for overlapping solid objects, when b is platform-tagged and a is
moving downward, detectCollision returns top whenever the top overlap is
less than half of a's height (regardless of the other penetration depths);
in every other case the returned direction is an axis of minimum
penetration. -/
theorem detectCollision_platform_bias (a b : Entity)
    (hsa : a.solid = true) (hsb : b.solid = true)
    (h1 : b.x < a.x + a.width) (h2 : a.x < b.x + b.width)
    (h3 : b.y < a.y + a.height) (h4 : a.y < b.y + b.height) :
    ((b.hasTag "platform" = true ∧ 0 < a.velocityY ∧ a.y + a.height - b.y < a.height / 2) →
      (detectCollision a b).direction = some CollisionDir.top)
    ∧ (¬(b.hasTag "platform" = true ∧ 0 < a.velocityY ∧ a.y + a.height - b.y < a.height / 2) →
      ∃ d, (detectCollision a b).direction = some d ∧
        penetrationDepth a b d =
          min (min (a.x + a.width - b.x) (b.x + b.width - a.x))
            (min (a.y + a.height - b.y) (b.y + b.height - a.y))) := by
  have hsolid : ¬(a.solid = false ∨ b.solid = false) := by simp [hsa, hsb]
  have hno : ¬(a.x + a.width ≤ b.x ∨ a.x ≥ b.x + b.width ∨
      a.y + a.height ≤ b.y ∨ a.y ≥ b.y + b.height) := by
    push_neg
    exact ⟨h1, h2, h3, h4⟩
  have hfour : ∀ w z y v : ℚ, min (min w z) (min y v) = w ∨ min (min w z) (min y v) = z ∨
      min (min w z) (min y v) = y ∨ min (min w z) (min y v) = v := by
    intro w z y v
    rcases min_cases (min w z) (min y v) with ⟨hq, _⟩ | ⟨hq, _⟩ <;> rw [hq]
    · rcases min_cases w z with ⟨hr, _⟩ | ⟨hr, _⟩ <;> rw [hr]
      · exact Or.inl rfl
      · exact Or.inr (Or.inl rfl)
    · rcases min_cases y v with ⟨hr, _⟩ | ⟨hr, _⟩ <;> rw [hr]
      · exact Or.inr (Or.inr (Or.inl rfl))
      · exact Or.inr (Or.inr (Or.inr rfl))
  constructor
  · rintro ⟨hp, hv, ht⟩
    simp only [detectCollision]
    rw [if_neg hsolid, if_neg hno]
    simp only []
    rw [if_pos ⟨hp, hv⟩, if_pos ht]
  · intro hnc
    simp only [detectCollision]
    rw [if_neg hsolid, if_neg hno]
    simp only []
    by_cases hpv : b.hasTag "platform" = true ∧ 0 < a.velocityY
    · have hto : ¬ a.y + a.height - b.y < a.height / 2 :=
        fun hh => hnc ⟨hpv.1, hpv.2, hh⟩
      rw [if_pos hpv, if_neg hto]
      by_cases e1 : min (min (a.x + a.width - b.x) (b.x + b.width - a.x))
          (min (a.y + a.height - b.y) (b.y + b.height - a.y)) = a.x + a.width - b.x
      · rw [if_pos e1]
        exact ⟨CollisionDir.left, rfl, by rw [penetrationDepth, e1]⟩
      · rw [if_neg e1]
        by_cases e2 : min (min (a.x + a.width - b.x) (b.x + b.width - a.x))
            (min (a.y + a.height - b.y) (b.y + b.height - a.y)) = b.x + b.width - a.x
        · rw [if_pos e2]
          exact ⟨CollisionDir.right, rfl, by rw [penetrationDepth, e2]⟩
        · rw [if_neg e2]
          by_cases e3 : min (min (a.x + a.width - b.x) (b.x + b.width - a.x))
              (min (a.y + a.height - b.y) (b.y + b.height - a.y)) = b.y + b.height - a.y
          · rw [if_pos e3]
            exact ⟨CollisionDir.bottom, rfl, by rw [penetrationDepth, e3]⟩
          · rw [if_neg e3]
            have e4 : min (min (a.x + a.width - b.x) (b.x + b.width - a.x))
                (min (a.y + a.height - b.y) (b.y + b.height - a.y)) = a.y + a.height - b.y := by
              rcases hfour (a.x + a.width - b.x) (b.x + b.width - a.x)
                  (a.y + a.height - b.y) (b.y + b.height - a.y) with hh | hh | hh | hh
              · exact absurd hh e1
              · exact absurd hh e2
              · exact hh
              · exact absurd hh e3
            exact ⟨CollisionDir.top, rfl, by rw [penetrationDepth, e4]⟩
    · rw [if_neg hpv]
      by_cases e1 : min (min (a.x + a.width - b.x) (b.x + b.width - a.x))
          (min (a.y + a.height - b.y) (b.y + b.height - a.y)) = a.y + a.height - b.y
      · rw [if_pos e1]
        exact ⟨CollisionDir.top, rfl, by rw [penetrationDepth, e1]⟩
      · rw [if_neg e1]
        by_cases e2 : min (min (a.x + a.width - b.x) (b.x + b.width - a.x))
            (min (a.y + a.height - b.y) (b.y + b.height - a.y)) = b.y + b.height - a.y
        · rw [if_pos e2]
          exact ⟨CollisionDir.bottom, rfl, by rw [penetrationDepth, e2]⟩
        · rw [if_neg e2]
          by_cases e3 : min (min (a.x + a.width - b.x) (b.x + b.width - a.x))
              (min (a.y + a.height - b.y) (b.y + b.height - a.y)) = a.x + a.width - b.x
          · rw [if_pos e3]
            exact ⟨CollisionDir.left, rfl, by rw [penetrationDepth, e3]⟩
          · rw [if_neg e3]
            have e4 : min (min (a.x + a.width - b.x) (b.x + b.width - a.x))
                (min (a.y + a.height - b.y) (b.y + b.height - a.y)) = b.x + b.width - a.x := by
              rcases hfour (a.x + a.width - b.x) (b.x + b.width - a.x)
                  (a.y + a.height - b.y) (b.y + b.height - a.y) with hh | hh | hh | hh
              · exact absurd hh e3
              · exact hh
              · exact absurd hh e1
              · exact absurd hh e2
            exact ⟨CollisionDir.right, rfl, by rw [penetrationDepth, e4]⟩

/-- Concrete fast-falling entity for the platform-bias witness: its left
overlap (1/2) is smaller than its top overlap (1), yet top is returned. -/
def c5A : Entity := { id := "a", x := 0, y := 0, width := 10, height := 10, velocityY := 5 }

/-- Concrete thin platform for the platform-bias witness. -/
def c5B : Entity := { id := "b", x := 19/2, y := 9, width := 30, height := 10, tags := ["platform"] }

/-- Witness for C5: the bias fires on a concrete pair where the minimum
penetration axis is left yet top is returned. -/
theorem detectCollision_platform_bias_witness :
    (detectCollision c5A c5B).direction = some CollisionDir.top :=
  (detectCollision_platform_bias c5A c5B rfl rfl
    (by norm_num [c5A, c5B]) (by norm_num [c5A, c5B])
    (by norm_num [c5A, c5B]) (by norm_num [c5A, c5B])).1
    ⟨rfl, by norm_num [c5A], by norm_num [c5A, c5B]⟩

/-- JS truthy-or default for an optional string field (empty string is
falsy). -/
def jsOrStr (v : Option String) (d : String) : String :=
  match v with
  | none => d
  | some s => if s = "" then d else s

/-- JS truthy-or default for an optional natural-number field (0 is falsy). -/
def jsOrNat (v : Option Nat) (d : Nat) : Nat :=
  match v with
  | none => d
  | some n => if n = 0 then d else n

/-- JS truthiness of a data-bag lookup (undefined, null, false, 0 and the
empty string are falsy). -/
def jsTruthy : Option DVal → Bool
  | none => false
  | some DVal.null => false
  | some (DVal.bool b) => b
  | some (DVal.num q) => decide (¬ q = 0)
  | some (DVal.str s) => decide (¬ s = "")

/-- getData k || d for a numeric data-bag entry: any falsy or non-numeric
stored value yields the default (the engine only stores numbers under the
keys read this way). -/
def getNumOr (e : Entity) (k : String) (d : ℚ) : ℚ :=
  match e.getData k with
  | some (DVal.num q) => if q = 0 then d else q
  | _ => d

/-- A bare numeric getData k read with no default.  In JS a missing key
gives undefined and arithmetic on it gives NaN; the engine always stores
these keys before reading them, and every comparison NaN participates in is
false, which coincides with the 0 used here in the places this helper is
applied (a claim never exercises the missing-key case). -/
def getNumRaw (e : Entity) (k : String) : ℚ :=
  match e.getData k with
  | some (DVal.num q) => q
  | _ => 0

/-- Declarative player parameters (gameData.parameters.player). -/
structure PlayerParams where
  startX : Option ℚ := none
  startY : Option ℚ := none
  size : Option ℚ := none
  acceleration : Option ℚ := none
  color : Option String := none
  speed : Option ℚ := none
  jumpForce : Option ℚ := none
deriving DecidableEq

/-- Declarative enemy parameters (gameData.parameters.enemies[i]). -/
structure EnemyParams where
  x : Option ℚ := none
  y : Option ℚ := none
  size : Option ℚ := none
  direction : Option ℚ := none
  speed : Option ℚ := none
  speedY : Option ℚ := none
  color : Option String := none
  behavior : Option String := none
  range : Option ℚ := none
deriving DecidableEq

/-- Declarative collectible parameters. -/
structure CollectibleParams where
  x : Option ℚ := none
  y : Option ℚ := none
  size : Option ℚ := none
  value : Option ℚ := none
  sound : Option String := none
  color : Option String := none
deriving DecidableEq

/-- Declarative platform parameters of one level. -/
structure PlatformParams where
  x : Option ℚ := none
  y : Option ℚ := none
  width : Option ℚ := none
  height : Option ℚ := none
  color : Option String := none
  sprite : Option String := none
  type : Option String := none
  movingPlatform : Bool := false
  moveSpeed : Option ℚ := none
  moveDistance : Option ℚ := none
  moveDirection : Option String := none
  disappearDuration : Option ℚ := none
deriving DecidableEq

/-- One level record. -/
structure LevelParams where
  name : String := ""
  platforms : List PlatformParams := []
  background : Option String := none
  requiredCollectibles : Option Nat := none
deriving DecidableEq

/-- World parameters; width/height/gravity/friction are optional in the
declarative data. -/
structure WorldParams where
  width : Option ℚ := none
  height : Option ℚ := none
  gravity : Option ℚ := none
  friction : Option ℚ := none
  backgroundColor : Option String := none
  levels : List LevelParams := []
deriving DecidableEq

/-- gameData.parameters: an absent enemies/collectibles block is an empty
list (the source guards with truthiness before iterating). -/
structure GameParams where
  world : Option WorldParams := none
  player : Option PlayerParams := none
  enemies : List EnemyParams := []
  collectibles : List CollectibleParams := []
deriving DecidableEq

/-- GameEngine state: one active scene (the engine creates exactly one),
level-progression counters, the transition flag, the declarative parameters,
a counter supplying the generated entity ids (the source uses
time-and-random ids; only freshness matters), and the log of sounds played
(observable effect of playSound). -/
structure Engine where
  scene : Scene
  currentLevelIndex : Nat := 0
  score : ℚ := 0
  collectedItems : Nat := 0
  totalCollectibles : Nat := 0
  gameCompleted : Bool := false
  levelTransitioning : Bool := false
  params : GameParams := {}
  nextId : Nat := 0
  soundLog : List String := []
deriving DecidableEq

/-- Generated entity id (Entity constructor default id). -/
def freshId (n : Nat) : String := "entity_" ++ toString n

/-- GameEngine.playSound, modelled as appending to the sound log. -/
def Engine.playSound (g : Engine) (i : String) : Engine :=
  { g with soundLog := g.soundLog ++ [i] }

/-- The player entity loadLevel creates. -/
def mkPlayerEntity (i : String) (p : PlayerParams) : Entity :=
  ({ id := i, x := jsOr p.startX 100, y := jsOr p.startY 100,
     width := jsOr p.size 32, height := jsOr p.size 32,
     velocityX := 0, velocityY := 0,
     acceleration := jsOr p.acceleration (1/2),
     color := jsOrStr p.color "#ffffff", solid := true,
     tags := ["player"] } : Entity)
    |>.setData "maxSpeed" (DVal.num (jsOr p.speed 5))
    |>.setData "jumpForce" (DVal.num (jsOr p.jumpForce 10))
    |>.setData "sprite" (DVal.str "player")
    |>.setData "facingLeft" (DVal.bool false)

/-- An optional numeric parameter stored raw with setData (undefined is
stored as a nullish value). -/
def rawNum : Option ℚ → DVal
  | none => DVal.null
  | some q => DVal.num q

/-- The enemy entity loadLevel creates at list index idx.  velocityX is
enemy.direction * (enemy.speed || 2); the source applies no default to
direction there (an absent direction would give NaN, never exercised),
modelled as 0. -/
def mkEnemyEntity (i : String) (idx : Nat) (en : EnemyParams) : Entity :=
  ({ id := i, x := jsOr en.x (200 + idx * 100), y := jsOr en.y 100,
     width := jsOr en.size 32, height := jsOr en.size 32,
     velocityX := (match en.direction with
       | some d => d * jsOr en.speed 2
       | none => 0),
     velocityY := jsOr en.speedY 0,
     color := jsOrStr en.color "#ff0000", solid := true,
     tags := ["enemy"] } : Entity)
    |>.setData "sprite" (DVal.str ("enemy_" ++ toString (idx % 3)))
    |>.setData "behavior" (DVal.str (jsOrStr en.behavior "patrol"))
    |>.setData "startX" (rawNum en.x)
    |>.setData "direction" (DVal.num (jsOr en.direction 1))
    |>.setData "range" (DVal.num (jsOr en.range 100))
    |>.setData "speed" (DVal.num (jsOr en.speed 2))

/-- The collectible entity loadLevel creates at list index idx; tagged both
collectible and platform. -/
def mkCollectibleEntity (i : String) (idx : Nat) (c : CollectibleParams) : Entity :=
  ({ id := i, x := jsOr c.x (150 + idx * 70), y := jsOr c.y 150,
     width := jsOr c.size 24, height := jsOr c.size 24,
     color := jsOrStr c.color "#ffff00", solid := true,
     tags := ["collectible", "platform"] } : Entity)
    |>.setData "sprite" (DVal.str ("collectible_" ++ toString (idx % 3)))
    |>.setData "value" (DVal.num (jsOr c.value 10))
    |>.setData "sound" (DVal.str (jsOrStr c.sound "collect"))

/-- sprite stored as platform.sprite || null. -/
def spriteOrNull : Option String → DVal
  | none => DVal.null
  | some s => if s = "" then DVal.null else DVal.str s

/-- The platform entity loadLevel creates at list index idx, including the
moving-platform and temporary-platform data. -/
def mkPlatformEntity (i : String) (idx : Nat) (p : PlatformParams) : Entity :=
  let base :=
    ({ id := i, x := jsOr p.x (100 + idx * 150), y := jsOr p.y 400,
       width := jsOr p.width 100, height := jsOr p.height 20,
       color := jsOrStr p.color "#555555", solid := true,
       tags := ["platform"] } : Entity)
      |>.setData "sprite" (spriteOrNull p.sprite)
      |>.setData "type" (DVal.str (jsOrStr p.type "solid"))
  let withMoving :=
    if p.movingPlatform = true then
      base
        |>.setData "movingPlatform" (DVal.bool true)
        |>.setData "moveSpeed" (DVal.num (jsOr p.moveSpeed 1))
        |>.setData "moveDistance" (DVal.num (jsOr p.moveDistance 100))
        |>.setData "moveDirection" (DVal.str (jsOrStr p.moveDirection "horizontal"))
        |>.setData "startX" (rawNum p.x)
        |>.setData "startY" (rawNum p.y)
        |>.setData "movePhase" (DVal.num 0)
    else base
  if p.type = some "temporary" then
    withMoving
      |>.setData "temporary" (DVal.bool true)
      |>.setData "disappearTime" (DVal.num 0)
      |>.setData "disappearDuration" (DVal.num (jsOr p.disappearDuration 1))
  else withMoving

/-- The enemy-creation forEach of loadLevel, threading the scene and the id
counter (idx is the forEach index). -/
def addEnemiesFrom (sc : Scene) (n : Nat) (idx : Nat) : List EnemyParams → Scene × Nat
  | [] => (sc, n)
  | en :: rest =>
    addEnemiesFrom (sc.addEntity (mkEnemyEntity (freshId n) idx en)) (n + 1) (idx + 1) rest

/-- The collectible-creation forEach of loadLevel. -/
def addCollectiblesFrom (sc : Scene) (n : Nat) (idx : Nat) : List CollectibleParams → Scene × Nat
  | [] => (sc, n)
  | c :: rest =>
    addCollectiblesFrom (sc.addEntity (mkCollectibleEntity (freshId n) idx c)) (n + 1) (idx + 1) rest

/-- The platform-creation forEach of loadLevel. -/
def addPlatformsFrom (sc : Scene) (n : Nat) (idx : Nat) : List PlatformParams → Scene × Nat
  | [] => (sc, n)
  | p :: rest =>
    addPlatformsFrom (sc.addEntity (mkPlatformEntity (freshId n) idx p)) (n + 1) (idx + 1) rest

/-- GameEngine.loadLevel: clears the active scene FIRST, then validates the
level index (an invalid index is logged and the load abandoned, leaving the
scene cleared), then instantiates player, enemies, collectibles (setting
totalCollectibles when the list is non-empty) and the level's platforms.
Setting the background color touches only the renderer.  Score,
collectedItems, currentLevelIndex and levelTransitioning are never written
here. -/
def Engine.loadLevel (g : Engine) (levelIndex : Nat) : Engine :=
  let g0 := { g with scene := g.scene.clear }
  match g0.params.world with
  | none => g0
  | some w =>
    match w.levels.get? levelIndex with
    | none => g0
    | some level =>
      let g1 :=
        match g0.params.player with
        | none => g0
        | some p =>
          { g0 with scene := g0.scene.addEntity (mkPlayerEntity (freshId g0.nextId) p),
                    nextId := g0.nextId + 1 }
      let g2 :=
        let r := addEnemiesFrom g1.scene g1.nextId 0 g1.params.enemies
        { g1 with scene := r.1, nextId := r.2 }
      let g3 :=
        if 0 < g2.params.collectibles.length then
          let g2a := { g2 with totalCollectibles := g2.params.collectibles.length }
          let r := addCollectiblesFrom g2a.scene g2a.nextId 0 g2a.params.collectibles
          { g2a with scene := r.1, nextId := r.2 }
        else g2
      let r := addPlatformsFrom g3.scene g3.nextId 0 level.platforms
      { g3 with scene := r.1, nextId := r.2 }

/-- In-place mutation of one entity of the active scene (the source mutates
the shared object; here the map entry is replaced by the mutated value). -/
def updateEntityInScene (g : Engine) (i : String) (f : Entity → Entity) : Engine :=
  match entGet g.scene.entities i with
  | none => g
  | some e => { g with scene := { g.scene with entities := entSet g.scene.entities (f e) } }

/-- GameEngine.checkCollision: plain AABB overlap with strict inequalities. -/
def engCheckCollision (a b : Entity) : Bool :=
  decide (a.x < b.x + b.width) && decide (b.x < a.x + a.width) &&
  decide (a.y < b.y + b.height) && decide (b.y < a.y + a.height)

/-- GameEngine.updateMovingPlatform.  hostSin models Math.sin and hostMod
models reduction modulo 2*PI, both real-valued host primitives abstracted as
arbitrary rational maps (no claim depends on their values). -/
def updateMovingPlatform (hostSin hostMod : ℚ → ℚ) (dt : ℚ) (p : Entity) : Entity :=
  let speed := getNumOr p "moveSpeed" 1
  let distance := getNumOr p "moveDistance" 100
  let direction :=
    match p.getData "moveDirection" with
    | some (DVal.str s) => if s = "" then "horizontal" else s
    | _ => "horizontal"
  let startX := getNumOr p "startX" p.x
  let startY := getNumOr p "startY" p.y
  let phase0 := getNumOr p "movePhase" 0
  let phase := hostMod (phase0 + speed * dt)
  let p1 := p.setData "movePhase" (DVal.num phase)
  if direction = "horizontal" then { p1 with x := startX + hostSin phase * distance }
  else if direction = "vertical" then { p1 with y := startY + hostSin phase * distance }
  else p1

/-- The temporary-platform decay branch of the platform forEach. -/
def tempPlatformTick (dt : ℚ) (p : Entity) : Entity :=
  if jsTruthy (p.getData "temporary") = true ∧ 0 < getNumRaw p "disappearTime" then
    let currentTime := getNumRaw p "disappearTime"
    let newTime := currentTime - dt
    if newTime ≤ 0 then { p with active := false, visible := false }
    else p.setData "disappearTime" (DVal.num newTime)
  else p

/-- The platform forEach of GameEngine.update: moving-platform kinematics and
temporary-platform decay, mutating each platform of the captured list in
place. -/
def platformTick (hostSin hostMod : ℚ → ℚ) (dt : ℚ) (platIds : List String)
    (g : Engine) : Engine :=
  { g with scene := { g.scene with entities := platIds.foldl (fun m i =>
      match entGet m i with
      | none => m
      | some p =>
        let p1 := if jsTruthy (p.getData "movingPlatform") = true then
            updateMovingPlatform hostSin hostMod dt p
          else p
        entSet m (tempPlatformTick dt p1)) g.scene.entities } }

/-- GameEngine.checkLevelCompletion: reads the collectible list and the
current level's required count, logs and plays a sound when reached; no
state changes.  none models the TypeError thrown when the world block or
the current level record is missing. -/
def Engine.checkLevelCompletion (g : Engine) : Option Engine :=
  let collectibles := g.scene.getEntitiesByTag "collectible"
  let _activeCollectibles := collectibles.filter (fun c => c.active)
  match g.params.world with
  | none => none
  | some w =>
    match w.levels.get? g.currentLevelIndex with
    | none => none
    | some level =>
      let requiredCollectibles := jsOrNat level.requiredCollectibles collectibles.length
      if requiredCollectibles ≤ g.collectedItems then some (g.playSound "collect")
      else some g

/-- The directional-input branch of the player rule pass. -/
def playerMoveStep (inputs : List String) (pid : String) (g : Engine) : Engine :=
  updateEntityInScene g pid (fun player =>
    let facingLeft := jsTruthy (player.getData "facingLeft")
    if inputs.contains "ArrowLeft" = true ∨ inputs.contains "KeyA" = true then
      ({ player with velocityX := -(getNumRaw player "maxSpeed") }).setData
        "facingLeft" (DVal.bool true)
    else if inputs.contains "ArrowRight" = true ∨ inputs.contains "KeyD" = true then
      ({ player with velocityX := getNumRaw player "maxSpeed" }).setData
        "facingLeft" (DVal.bool false)
    else
      ({ player with velocityX := 0 }).setData "facingLeft" (DVal.bool facingLeft))

/-- The jump branch marks every temporary platform currently touched whose
disappear timer is exactly 0 (strict equality in the source). -/
def markTempPlatforms (pid : String) (platIds : List String) (g : Engine) : Engine :=
  platIds.foldl (fun g2 i =>
    match entGet g2.scene.entities i, entGet g2.scene.entities pid with
    | some plat, some player =>
      if jsTruthy (plat.getData "temporary") = true ∧ engCheckCollision player plat = true
          ∧ plat.getData "disappearTime" = some (DVal.num 0) then
        updateEntityInScene g2 i (fun p =>
          p.setData "disappearTime" (DVal.num (getNumOr p "disappearDuration" 1)))
      else g2
    | _, _ => g2) g

/-- The jump branch of the player rule pass. -/
def playerJumpStep (inputs : List String) (pid : String) (platIds : List String)
    (g : Engine) : Engine :=
  match entGet g.scene.entities pid with
  | none => g
  | some player =>
    if (inputs.contains "ArrowUp" = true ∨ inputs.contains "KeyW" = true
        ∨ inputs.contains "Space" = true) ∧ player.onGround = true then
      let g1 := updateEntityInScene g pid (fun p =>
        { p with velocityY := -(getNumRaw p "jumpForce"), onGround := false })
      let g2 := g1.playSound "jump"
      markTempPlatforms pid platIds g2
    else g

/-- One iteration of the collectible forEach: deactivate and hide the
collectible, grant its value, count it, play its sound, re-check level
completion. -/
def collectibleRule (pid : String) (g : Engine) (i : String) : Option Engine :=
  match entGet g.scene.entities i, entGet g.scene.entities pid with
  | some c, some player =>
    if c.active = true ∧ engCheckCollision player c = true then
      let g1 := updateEntityInScene g i (fun c2 => { c2 with active := false, visible := false })
      let g2 := { g1 with score := g1.score + getNumOr c "value" 10,
                          collectedItems := g1.collectedItems + 1 }
      let g3 :=
        match c.getData "sound" with
        | some (DVal.str s) => if s = "" then g2 else g2.playSound s
        | _ => g2
      g3.checkLevelCompletion
    else some g
  | _, _ => some g

/-- The collectible forEach over the captured collectible list. -/
def collectibleStep (pid : String) (g : Engine) : Option Engine :=
  ((g.scene.getEntitiesByTag "collectible").map Entity.id).foldlM
    (fun g2 i => collectibleRule pid g2 i) g

/-- One iteration of the enemy forEach: a downward stomp on the enemy's top
half defeats it (deactivate and hide, bounce the player at velocityY -7,
award 50 points), any other overlapping contact resets the player to the
spawn point with zero velocity; both branches play the hit sound.  none
models the TypeError of reading the spawn point when the player parameter
block is missing. -/
def enemyRule (pid : String) (g : Engine) (i : String) : Option Engine :=
  match entGet g.scene.entities i, entGet g.scene.entities pid with
  | some enemy, some player =>
    if enemy.active = true ∧ engCheckCollision player enemy = true then
      if 0 < player.velocityY ∧ player.y + player.height < enemy.y + enemy.height / 2 then
        let g1 := updateEntityInScene g i (fun en => { en with active := false, visible := false })
        let g2 := updateEntityInScene g1 pid (fun p => { p with velocityY := -7 })
        let g3 := { g2 with score := g2.score + 50 }
        some (g3.playSound "hit")
      else
        match g.params.player with
        | none => none
        | some pp =>
          let g1 := updateEntityInScene g pid (fun p =>
            { p with x := jsOr pp.startX 100, y := jsOr pp.startY 100,
                     velocityX := 0, velocityY := 0 })
          some (g1.playSound "hit")
    else some g
  | _, _ => some g

/-- The enemy forEach over the captured enemy list. -/
def enemyStep (pid : String) (g : Engine) : Option Engine :=
  ((g.scene.getEntitiesByTag "enemy").map Entity.id).foldlM
    (fun g2 i => enemyRule pid g2 i) g

/-- The fell-off-the-level check: reset to spawn when player.y exceeds the
world height (comparison with an absent height is a NaN comparison in JS,
always false). -/
def fallCheckStep (pid : String) (g : Engine) : Option Engine :=
  match entGet g.scene.entities pid with
  | none => some g
  | some player =>
    match g.params.world with
    | none => none
    | some w =>
      let cond := match w.height with | some h => decide (h < player.y) | none => false
      if cond = true then
        match g.params.player with
        | none => none
        | some pp =>
          some ((updateEntityInScene g pid (fun p =>
            { p with x := jsOr pp.startX 100, y := jsOr pp.startY 100,
                     velocityX := 0, velocityY := 0 })).playSound "hit")
      else some g

/-- GameEngine.goToNextLevel, synchronous part: set the transition flag; when
a further level exists the actual load happens later in a setTimeout
callback (asynchronous, outside this step), otherwise mark the game
completed (the restart handler is likewise asynchronous).  none models the
TypeError of reading the level list when the world block is missing. -/
def Engine.goToNextLevel (g : Engine) : Option Engine :=
  if g.levelTransitioning = true then some g
  else
    let g1 := { g with levelTransitioning := true }
    match g1.params.world with
    | none => none
    | some w =>
      if g1.currentLevelIndex + 1 < w.levels.length then some g1
      else some { g1 with gameCompleted := true }

/-- The reached-the-level-exit check: trigger the level transition when the
player's x exceeds world.width - 2 * player.width (an absent width gives a
NaN comparison in JS, always false). -/
def exitCheckStep (pid : String) (g : Engine) : Option Engine :=
  match entGet g.scene.entities pid with
  | none => some g
  | some player =>
    match g.params.world with
    | none => none
    | some w =>
      let cond := match w.width with
        | some wd => decide (wd - player.width * 2 < player.x)
        | none => false
      if cond = true then g.goToNextLevel else some g

/-- GameEngine.updatePatrolEnemy: reverse direction at the patrol-range
edges. -/
def updatePatrolEnemy (en : Entity) : Entity :=
  let startX := getNumOr en "startX" en.x
  let range := getNumOr en "range" 100
  let speed := getNumOr en "speed" 2
  let direction := getNumOr en "direction" 1
  if 0 < direction ∧ startX + range < en.x then
    { en.setData "direction" (DVal.num (-1)) with velocityX := -speed }
  else if direction < 0 ∧ en.x < startX - range then
    { en.setData "direction" (DVal.num 1) with velocityX := speed }
  else en

/-- The enemy-AI forEach at the end of the update pass. -/
def enemyAIStep (g : Engine) : Engine :=
  ((g.scene.getEntitiesByTag "enemy").map Entity.id).foldl (fun g2 i =>
    match entGet g2.scene.entities i with
    | none => g2
    | some en =>
      if en.active = true ∧ en.getData "behavior" = some (DVal.str "patrol") then
        updateEntityInScene g2 i updatePatrolEnemy
      else g2) g

/-- The player rule chain between Scene.update and the exit check: input
velocities, jump, collectibles, enemies, fall respawn. -/
def ruleChain (inputs : List String) (pid : String) (platIds : List String)
    (g : Engine) : Option Engine :=
  let g3 := playerMoveStep inputs pid g
  let g4 := playerJumpStep inputs pid platIds g3
  (collectibleStep pid g4).bind (fun g5 =>
    (enemyStep pid g5).bind (fun g6 =>
      fallCheckStep pid g6))

/-- GameEngine.update for one frame: skip everything while transitioning,
else platform kinematics/decay on the captured platform list, Scene.update,
the player rule chain, the exit check, then patrol AI.  Input edge-state and
sprite-clock updates touch no state modelled here.  The engine never
attaches behaviors, so Scene.update runs under the empty hook
environment. -/
def engineUpdate (hostSin hostMod : ℚ → ℚ) (inputs : List String) (dt : ℚ)
    (g : Engine) : Option Engine :=
  if g.levelTransitioning = true then some g
  else
    let platIds := (g.scene.getEntitiesByTag "platform").map Entity.id
    let g1 := platformTick hostSin hostMod dt platIds g
    let g2 := { g1 with scene := Scene.update noHooks dt g1.scene }
    match (g2.scene.getEntitiesByTag "player").map Entity.id with
    | [] => some (enemyAIStep g2)
    | pid :: _ =>
      (ruleChain inputs pid platIds g2).bind (fun g7 =>
        (exitCheckStep pid g7).bind (fun g8 => some (enemyAIStep g8)))

/-- Asset type tag. -/
inductive AssetType where
  | image
  | spritesheet
  | json
  | binary
deriving DecidableEq

/-- Asset record (Asset.ts).  The decoded payload is opaque to every claim
and is modelled as a string. -/
structure Asset where
  id : String
  url : String
  type : AssetType
  loaded : Bool
  data : Option String := none
  error : Option String := none
deriving DecidableEq

/-- JS Map.set on the asset map. -/
def assetsSet (m : List (String × Asset)) (k : String) (a : Asset) : List (String × Asset) :=
  if m.any (fun p => p.1 = k) then m.map (fun p => if p.1 = k then (k, a) else p)
  else m ++ [(k, a)]

/-- JS Map.get on the asset map. -/
def assetsGet (m : List (String × Asset)) (k : String) : Option Asset :=
  (m.find? (fun p => p.1 = k)).map Prod.snd

/-- AssetManager state: the asset map, the ids with an in-flight load
promise, and the base URL. -/
structure AssetManager where
  assets : List (String × Asset) := []
  loadPromises : List String := []
  baseUrl : String := ""
deriving DecidableEq

/-- AssetManager.inferTypeFromUrl. -/
def inferTypeFromUrl (url : String) : AssetType :=
  let lowerUrl := url.toLower
  if lowerUrl.endsWith ".png" || lowerUrl.endsWith ".jpg" || lowerUrl.endsWith ".jpeg"
      || lowerUrl.endsWith ".gif" || lowerUrl.endsWith ".webp" then
    AssetType.image
  else if lowerUrl.endsWith ".json" then
    if 1 < (lowerUrl.splitOn "spritesheet").length
        || 1 < (lowerUrl.splitOn "sprite-sheet").length
        || 1 < (lowerUrl.splitOn "sprite_sheet").length then
      AssetType.spritesheet
    else AssetType.json
  else AssetType.binary

/-- The outcome a load resolves with once the network/decode work finishes:
the decoded payload, or the error message of the failure. -/
def LoadOutcome : Type := Except String String

/-- What a loadAsset call hands back to its caller: a settled promise
(fulfilled with the asset or rejected with the error), or the still-pending
promise of an earlier call for the same id. -/
inductive LoadResult where
  | resolved (r : Except String Asset)
  | pendingExisting

/-- AssetManager.loadAssetData: on success store the payload and mark
loaded, on failure record the message in the error field and re-throw;
returns the mutated asset record and the function's outcome. -/
def loadAssetData (a : Asset) (outcome : LoadOutcome) : Asset × Except String Asset :=
  match outcome with
  | Except.ok payload =>
    let a1 := { a with data := some payload, loaded := true }
    (a1, Except.ok a1)
  | Except.error msg =>
    let a1 := { a with error := some msg }
    (a1, Except.error msg)

/-- AssetManager.loadAsset: return the record of an already-loaded id,
return the in-flight promise of an id already loading, otherwise create the
record (type inferred from the URL when not given), register it and the
load promise, run loadAssetData with the eventual outcome, clear the
promise, and on failure store the error on the record (the catch block
re-sets the same mutated object) and reject the caller. -/
def AssetManager.loadAsset (m : AssetManager) (i url : String) (otype : Option AssetType)
    (outcome : LoadOutcome) : AssetManager × LoadResult :=
  match assetsGet m.assets i with
  | some a => (m, LoadResult.resolved (Except.ok a))
  | none =>
    if m.loadPromises.contains i = true then (m, LoadResult.pendingExisting)
    else
      let t := otype.getD (inferTypeFromUrl url)
      let asset : Asset := { id := i, url := url, type := t, loaded := false }
      let m1 := { m with assets := assetsSet m.assets i asset }
      let m2 := { m1 with loadPromises := m1.loadPromises ++ [i] }
      match loadAssetData asset outcome with
      | (a1, Except.ok la) =>
        let m3 := { m2 with assets := assetsSet m2.assets i a1 }
        let m4 := { m3 with loadPromises := m3.loadPromises.filter (fun x => ¬ x = i) }
        (m4, LoadResult.resolved (Except.ok la))
      | (a1, Except.error msg) =>
        let m3 := { m2 with assets := assetsSet m2.assets i a1 }
        let m4 := { m3 with loadPromises := m3.loadPromises.filter (fun x => ¬ x = i) }
        let m5 := { m4 with assets := assetsSet m4.assets i a1 }
        (m5, LoadResult.resolved (Except.error msg))

theorem assetsGet_assetsSet_self (m : List (String × Asset)) (k : String) (a : Asset) :
    assetsGet (assetsSet m k a) k = some a := by
  unfold assetsSet assetsGet
  split
  · rename_i hany
    induction m with
    | nil => simp at hany
    | cons p ps ih =>
      by_cases hp : p.1 = k
      · simp [List.find?_cons, hp]
      · simp only [List.map_cons, if_neg hp, List.find?_cons]
        rw [decide_eq_false hp]
        simp only [List.any_cons] at hany
        rw [decide_eq_false hp] at hany
        simpa using ih (by simpa using hany)
  · induction m with
    | nil => simp [List.find?_cons]
    | cons p ps ih =>
      rename_i hany
      by_cases hp : p.1 = k
      · exact absurd (by simp [List.any_cons, hp]) hany
      · simp only [List.cons_append, List.find?_cons]
        rw [decide_eq_false hp]
        exact ih (by
          intro hc
          exact hany (by simp [List.any_cons]; right; simpa using hc))

/-- C7: a fresh load that fails rejects the caller with the error, records
the message in the asset record's error field, and leaves the record's
loaded flag false. -/
theorem loadAsset_failure_not_loaded (m : AssetManager) (i url msg : String)
    (otype : Option AssetType)
    (hfresh : assetsGet m.assets i = none)
    (hflight : m.loadPromises.contains i = false) :
    ∃ mr a, m.loadAsset i url otype (Except.error msg)
        = (mr, LoadResult.resolved (Except.error msg))
      ∧ assetsGet mr.assets i = some a
      ∧ a.error = some msg ∧ a.loaded = false := by
  unfold AssetManager.loadAsset
  rw [hfresh]
  simp only [hflight]
  rw [if_neg (by simp)]
  simp only [loadAssetData]
  exact ⟨_, _, rfl, assetsGet_assetsSet_self _ _ _, rfl, rfl⟩

/-- Witness for C7 with a concrete fresh manager and failing outcome. -/
theorem loadAsset_failure_not_loaded_witness :
    ∃ mr a, AssetManager.loadAsset {} "player" "player.png" none (Except.error "network error")
        = (mr, LoadResult.resolved (Except.error "network error"))
      ∧ assetsGet mr.assets "player" = some a
      ∧ a.error = some "network error" ∧ a.loaded = false :=
  loadAsset_failure_not_loaded {} "player" "player.png" "network error" none rfl rfl

theorem loadLevel_abandon_eq (g : Engine) (i : Nat)
    (h : ∀ w, g.params.world = some w → w.levels.length ≤ i) :
    Engine.loadLevel g i = { g with scene := g.scene.clear } := by
  unfold Engine.loadLevel
  cases hw : g.params.world with
  | none => simp only [hw]
  | some w =>
    have hnone : w.levels.get? i = none := by
      rw [List.get?_eq_none]
      exact h w hw
    simp only [hw, hnone]

/-- C3 (amended): loading a level index beyond the level list logs the error
and abandons the load (no entities are created, no counter or flag is
written), but the active scene has already been cleared before the index
check, so the previous level's entities are NOT left in place: the scene's
entity map is empty after the call. -/
theorem loadLevel_invalid_index (g : Engine) (i : Nat)
    (h : ∀ w, g.params.world = some w → w.levels.length ≤ i) :
    (Engine.loadLevel g i).scene.entities = []
    ∧ (Engine.loadLevel g i).score = g.score
    ∧ (Engine.loadLevel g i).collectedItems = g.collectedItems
    ∧ (Engine.loadLevel g i).totalCollectibles = g.totalCollectibles
    ∧ (Engine.loadLevel g i).currentLevelIndex = g.currentLevelIndex
    ∧ (Engine.loadLevel g i).levelTransitioning = g.levelTransitioning := by
  rw [loadLevel_abandon_eq g i h]
  exact ⟨rfl, rfl, rfl, rfl, rfl, rfl⟩

/-- Entity standing in for the previous level's content. -/
def c3Ent : Entity := { id := "old", x := 1, y := 2, width := 3, height := 4 }

/-- Engine with one declared level and one live entity, asked for level 5. -/
def c3Engine : Engine :=
  { scene := { entities := [c3Ent] },
    params := { world := some { levels := [{}] } } }

/-- C3 counterexample: after loadLevel(5) on an engine whose only declared
level is index 0, the scene's entity map is empty, not equal to the
previous level's entity set. -/
theorem loadLevel_invalid_index_counterexample :
    (Engine.loadLevel c3Engine 5).scene.entities = []
    ∧ c3Engine.scene.entities = [c3Ent]
    ∧ ([] : List Entity) ≠ [c3Ent] := by
  refine ⟨rfl, rfl, by simp⟩

/-- Witness for the amended C3 theorem at the same concrete engine. -/
theorem loadLevel_invalid_index_witness :
    (Engine.loadLevel c3Engine 5).scene.entities = []
    ∧ (Engine.loadLevel c3Engine 5).score = c3Engine.score :=
  ⟨(loadLevel_invalid_index c3Engine 5 (by intro w hw; cases hw; decide)).1,
   (loadLevel_invalid_index c3Engine 5 (by intro w hw; cases hw; decide)).2.1⟩

theorem loadLevel_counters (g : Engine) (i : Nat) :
    (Engine.loadLevel g i).score = g.score
    ∧ (Engine.loadLevel g i).collectedItems = g.collectedItems
    ∧ (Engine.loadLevel g i).currentLevelIndex = g.currentLevelIndex
    ∧ (Engine.loadLevel g i).levelTransitioning = g.levelTransitioning := by
  unfold Engine.loadLevel
  cases hw : g.params.world with
  | none => simp only [hw]; exact ⟨trivial, trivial, trivial, trivial⟩
  | some w =>
    cases hl : w.levels.get? i with
    | none => simp only [hw, hl]; exact ⟨trivial, trivial, trivial, trivial⟩
    | some level =>
      simp only [hw, hl]
      cases hp : g.params.player with
      | none =>
        simp only [hp]
        by_cases hc : 0 < g.params.collectibles.length <;> simp [hc]
      | some p =>
        simp only [hp]
        by_cases hc : 0 < g.params.collectibles.length <;> simp [hc]

theorem loadLevel_totalCollectibles (g : Engine) (i : Nat) (w : WorldParams)
    (level : LevelParams) (hw : g.params.world = some w)
    (hl : w.levels.get? i = some level) :
    (0 < g.params.collectibles.length →
      (Engine.loadLevel g i).totalCollectibles = g.params.collectibles.length)
    ∧ (g.params.collectibles.length = 0 →
      (Engine.loadLevel g i).totalCollectibles = g.totalCollectibles) := by
  unfold Engine.loadLevel
  simp only [hw, hl]
  cases hp : g.params.player with
  | none =>
    constructor
    · intro hc
      simp only [hc, reduceIte]
    · intro hc
      have hnc : ¬ 0 < g.params.collectibles.length := by omega
      simp only [hnc, reduceIte]
  | some p =>
    constructor
    · intro hc
      simp only [hc, reduceIte]
    · intro hc
      have hnc : ¬ 0 < g.params.collectibles.length := by omega
      simp only [hnc, reduceIte]

/-- C6 (amended): after a valid loadLevel the score is unchanged (it
persists across levels) and the total-collectible count is re-assigned from
the game's collectible list whenever that list is non-empty (and untouched
when it is empty); the collected-items counter, however, is NOT reset by
loadLevel: it persists exactly like the score (only engine initialization
and the post-completion restart reset it). -/
theorem loadLevel_score_persists (g : Engine) (i : Nat) (w : WorldParams)
    (level : LevelParams) (hw : g.params.world = some w)
    (hl : w.levels.get? i = some level) :
    (Engine.loadLevel g i).score = g.score
    ∧ (Engine.loadLevel g i).collectedItems = g.collectedItems
    ∧ (0 < g.params.collectibles.length →
      (Engine.loadLevel g i).totalCollectibles = g.params.collectibles.length)
    ∧ (g.params.collectibles.length = 0 →
      (Engine.loadLevel g i).totalCollectibles = g.totalCollectibles) := by
  obtain ⟨h1, h2, _, _⟩ := loadLevel_counters g i
  obtain ⟨h3, h4⟩ := loadLevel_totalCollectibles g i w level hw hl
  exact ⟨h1, h2, h3, h4⟩

/-- Engine mid-run: 3 collectibles already collected, score 7, one declared
level with one collectible in the game data. -/
def c6Engine : Engine :=
  { scene := {}, score := 7, collectedItems := 3,
    params := { world := some { levels := [{}] }, collectibles := [{}] } }

/-- C6 counterexample: loadLevel(0) on an engine whose collected-this-run
counter is 3 leaves the counter at 3; it is not reset for the new level. -/
theorem loadLevel_collected_not_reset_counterexample :
    (Engine.loadLevel c6Engine 0).collectedItems = 3 ∧ (3 : Nat) ≠ 0 :=
  ⟨(loadLevel_counters c6Engine 0).2.1.trans rfl, by decide⟩

/-- Witness for the amended C6 theorem at the same concrete engine. -/
theorem loadLevel_score_persists_witness :
    (Engine.loadLevel c6Engine 0).score = 7
    ∧ (Engine.loadLevel c6Engine 0).collectedItems = 3
    ∧ (Engine.loadLevel c6Engine 0).totalCollectibles = 1 := by
  have h := loadLevel_score_persists c6Engine 0 { levels := [{}] } {} rfl rfl
  exact ⟨h.1.trans rfl, h.2.1.trans rfl, (h.2.2.1 (by decide)).trans rfl⟩

theorem setData_tags (e : Entity) (k : String) (v : DVal) :
    (e.setData k v).tags = e.tags := rfl

theorem mkPlayerEntity_tags (i : String) (p : PlayerParams) :
    (mkPlayerEntity i p).tags = ["player"] := rfl

theorem mkEnemyEntity_tags (i : String) (idx : Nat) (en : EnemyParams) :
    (mkEnemyEntity i idx en).tags = ["enemy"] := rfl

theorem mkCollectibleEntity_tags (i : String) (idx : Nat) (c : CollectibleParams) :
    (mkCollectibleEntity i idx c).tags = ["collectible", "platform"] := rfl

theorem mkPlatformEntity_tags (i : String) (idx : Nat) (p : PlatformParams) :
    (mkPlatformEntity i idx p).tags = ["platform"] := by
  simp only [mkPlatformEntity]
  split <;> split <;> rfl

theorem mem_entSet_cases (x : Entity) (m : List Entity) (e : Entity)
    (h : x ∈ entSet m e) : x ∈ m ∨ x = e := by
  unfold entSet at h
  split at h
  · rcases List.mem_map.mp h with ⟨y, hy, rfl⟩
    by_cases hid : y.id = e.id
    · right; simp [hid]
    · left; simpa [hid] using hy
  · rcases List.mem_append.mp h with hm | hm
    · exact Or.inl hm
    · right; simpa using hm

theorem addEntity_isUpdating (s : Scene) (e : Entity) :
    (s.addEntity e).isUpdating = s.isUpdating := by
  unfold Scene.addEntity
  split <;> rfl

theorem mem_addEntity_cases (s : Scene) (e : Entity) (x : Entity)
    (hup : s.isUpdating = false) (h : x ∈ (s.addEntity e).entities) :
    x ∈ s.entities ∨ x = e := by
  unfold Scene.addEntity at h
  rw [hup] at h
  simp only [Bool.false_eq_true, if_false, reduceIte] at h
  exact mem_entSet_cases x s.entities e h

theorem addEnemiesFrom_spec (l : List EnemyParams) (sc : Scene) (n idx : Nat)
    (hup : sc.isUpdating = false) :
    (addEnemiesFrom sc n idx l).1.isUpdating = false ∧
    ∀ x ∈ (addEnemiesFrom sc n idx l).1.entities,
      x ∈ sc.entities ∨ x.tags = ["enemy"] := by
  induction l generalizing sc n idx with
  | nil => exact ⟨hup, fun x hx => Or.inl hx⟩
  | cons en rest ih =>
    simp only [addEnemiesFrom]
    have hup2 : (sc.addEntity (mkEnemyEntity (freshId n) idx en)).isUpdating = false := by
      rw [addEntity_isUpdating]; exact hup
    obtain ⟨ha, hb⟩ := ih (sc.addEntity (mkEnemyEntity (freshId n) idx en)) (n + 1) (idx + 1) hup2
    refine ⟨ha, fun x hx => ?_⟩
    rcases hb x hx with hm | ht
    · rcases mem_addEntity_cases sc (mkEnemyEntity (freshId n) idx en) x hup hm with hm2 | he
      · exact Or.inl hm2
      · right; rw [he, mkEnemyEntity_tags]
    · exact Or.inr ht

theorem addCollectiblesFrom_spec (l : List CollectibleParams) (sc : Scene) (n idx : Nat)
    (hup : sc.isUpdating = false) :
    (addCollectiblesFrom sc n idx l).1.isUpdating = false ∧
    ∀ x ∈ (addCollectiblesFrom sc n idx l).1.entities,
      x ∈ sc.entities ∨ x.tags = ["collectible", "platform"] := by
  induction l generalizing sc n idx with
  | nil => exact ⟨hup, fun x hx => Or.inl hx⟩
  | cons c rest ih =>
    simp only [addCollectiblesFrom]
    have hup2 : (sc.addEntity (mkCollectibleEntity (freshId n) idx c)).isUpdating = false := by
      rw [addEntity_isUpdating]; exact hup
    obtain ⟨ha, hb⟩ := ih (sc.addEntity (mkCollectibleEntity (freshId n) idx c)) (n + 1) (idx + 1) hup2
    refine ⟨ha, fun x hx => ?_⟩
    rcases hb x hx with hm | ht
    · rcases mem_addEntity_cases sc (mkCollectibleEntity (freshId n) idx c) x hup hm with hm2 | he
      · exact Or.inl hm2
      · right; rw [he, mkCollectibleEntity_tags]
    · exact Or.inr ht

theorem addPlatformsFrom_spec (l : List PlatformParams) (sc : Scene) (n idx : Nat)
    (hup : sc.isUpdating = false) :
    (addPlatformsFrom sc n idx l).1.isUpdating = false ∧
    ∀ x ∈ (addPlatformsFrom sc n idx l).1.entities,
      x ∈ sc.entities ∨ x.tags = ["platform"] := by
  induction l generalizing sc n idx with
  | nil => exact ⟨hup, fun x hx => Or.inl hx⟩
  | cons p rest ih =>
    simp only [addPlatformsFrom]
    have hup2 : (sc.addEntity (mkPlatformEntity (freshId n) idx p)).isUpdating = false := by
      rw [addEntity_isUpdating]; exact hup
    obtain ⟨ha, hb⟩ := ih (sc.addEntity (mkPlatformEntity (freshId n) idx p)) (n + 1) (idx + 1) hup2
    refine ⟨ha, fun x hx => ?_⟩
    rcases hb x hx with hm | ht
    · rcases mem_addEntity_cases sc (mkPlatformEntity (freshId n) idx p) x hup hm with hm2 | he
      · exact Or.inl hm2
      · right; rw [he, mkPlatformEntity_tags]
    · exact Or.inr ht

theorem loadLevel_tags (g : Engine) (i : Nat) (hup : g.scene.isUpdating = false) :
    ∀ x ∈ (Engine.loadLevel g i).scene.entities,
      x.tags = ["player"] ∨ x.tags = ["enemy"]
      ∨ x.tags = ["collectible", "platform"] ∨ x.tags = ["platform"] := by
  have hu0 : (g.scene.clear).isUpdating = false := hup
  unfold Engine.loadLevel
  cases hw : g.params.world with
  | none => simp only [hw]; intro x hx; simp [Scene.clear] at hx
  | some w =>
    cases hl : w.levels.get? i with
    | none => simp only [hw, hl]; intro x hx; simp [Scene.clear] at hx
    | some level =>
      simp only [hw, hl]
      cases hp : g.params.player with
      | none =>
        simp only [hp]
        by_cases hc : 0 < g.params.collectibles.length
        · simp only [hc, reduceIte]
          intro x hx
          have hu2 := (addEnemiesFrom_spec g.params.enemies g.scene.clear g.nextId 0 hu0).1
          have hu3 := (addCollectiblesFrom_spec g.params.collectibles _
            (addEnemiesFrom g.scene.clear g.nextId 0 g.params.enemies).2 0 hu2).1
          rcases (addPlatformsFrom_spec level.platforms _ _ 0 hu3).2 x hx with hm | ht
          · rcases (addCollectiblesFrom_spec g.params.collectibles _ _ 0 hu2).2 x hm with hm2 | ht
            · rcases (addEnemiesFrom_spec g.params.enemies g.scene.clear g.nextId 0 hu0).2 x hm2
                with hm3 | ht
              · simp [Scene.clear] at hm3
              · exact Or.inr (Or.inl ht)
            · exact Or.inr (Or.inr (Or.inl ht))
          · exact Or.inr (Or.inr (Or.inr ht))
        · simp only [hc, reduceIte]
          intro x hx
          have hu2 := (addEnemiesFrom_spec g.params.enemies g.scene.clear g.nextId 0 hu0).1
          rcases (addPlatformsFrom_spec level.platforms _ _ 0 hu2).2 x hx with hm | ht
          · rcases (addEnemiesFrom_spec g.params.enemies g.scene.clear g.nextId 0 hu0).2 x hm
              with hm2 | ht
            · simp [Scene.clear] at hm2
            · exact Or.inr (Or.inl ht)
          · exact Or.inr (Or.inr (Or.inr ht))
      | some p =>
        simp only [hp]
        have hu1 : ((g.scene.clear).addEntity
            (mkPlayerEntity (freshId g.nextId) p)).isUpdating = false := by
          rw [addEntity_isUpdating]; exact hu0
        by_cases hc : 0 < g.params.collectibles.length
        · simp only [hc, reduceIte]
          intro x hx
          have hu2 := (addEnemiesFrom_spec g.params.enemies _ (g.nextId + 1) 0 hu1).1
          have hu3 := (addCollectiblesFrom_spec g.params.collectibles _
            (addEnemiesFrom ((g.scene.clear).addEntity (mkPlayerEntity (freshId g.nextId) p))
              (g.nextId + 1) 0 g.params.enemies).2 0 hu2).1
          rcases (addPlatformsFrom_spec level.platforms _ _ 0 hu3).2 x hx with hm | ht
          · rcases (addCollectiblesFrom_spec g.params.collectibles _ _ 0 hu2).2 x hm with hm2 | ht
            · rcases (addEnemiesFrom_spec g.params.enemies _ (g.nextId + 1) 0 hu1).2 x hm2
                with hm3 | ht
              · rcases mem_addEntity_cases (g.scene.clear)
                  (mkPlayerEntity (freshId g.nextId) p) x hu0 hm3 with hm4 | he
                · simp [Scene.clear] at hm4
                · left; rw [he, mkPlayerEntity_tags]
              · exact Or.inr (Or.inl ht)
            · exact Or.inr (Or.inr (Or.inl ht))
          · exact Or.inr (Or.inr (Or.inr ht))
        · simp only [hc, reduceIte]
          intro x hx
          have hu2 := (addEnemiesFrom_spec g.params.enemies _ (g.nextId + 1) 0 hu1).1
          rcases (addPlatformsFrom_spec level.platforms _ _ 0 hu2).2 x hx with hm | ht
          · rcases (addEnemiesFrom_spec g.params.enemies _ (g.nextId + 1) 0 hu1).2 x hm
              with hm2 | ht
            · rcases mem_addEntity_cases (g.scene.clear)
                (mkPlayerEntity (freshId g.nextId) p) x hu0 hm2 with hm3 | he
              · simp [Scene.clear] at hm3
              · left; rw [he, mkPlayerEntity_tags]
            · exact Or.inr (Or.inl ht)
          · exact Or.inr (Or.inr (Or.inr ht))

theorem entGet_mem_nodup (m : List Entity) (ent : Entity) (hm : ent ∈ m)
    (hnd : (m.map Entity.id).Nodup) : entGet m ent.id = some ent := by
  induction m with
  | nil => cases hm
  | cons x xs ih =>
    simp only [List.map_cons, List.nodup_cons] at hnd
    rcases List.mem_cons.mp hm with rfl | hmem
    · unfold entGet
      simp [List.find?_cons]
    · unfold entGet at ih ⊢
      have hne : ¬ x.id = ent.id := by
        intro hh
        exact hnd.1 (by rw [hh]; exact List.mem_map_of_mem Entity.id hmem)
      simp only [List.find?_cons]
      rw [decide_eq_false hne]
      exact ih hmem hnd.2

theorem platform_id_not_in_activeOtherIds (s : Scene) (ent : Entity)
    (hm : ent ∈ s.entities) (hplat : ent.hasTag "platform" = true)
    (hnd : (s.entities.map Entity.id).Nodup) : ent.id ∉ activeOtherIds s := by
  intro hmem
  unfold activeOtherIds at hmem
  rcases List.mem_map.mp hmem with ⟨y, hy, hid⟩
  rcases List.mem_filter.mp hy with ⟨hym, hcond⟩
  have hye : y = ent := List.inj_on_of_nodup_map hnd hym hm hid
  subst hye
  simp only [Bool.and_eq_true, Bool.not_eq_true'] at hcond
  rw [hplat] at hcond
  exact absurd hcond.2 (by simp)

theorem platform_id_in_activePlatformIds (s : Scene) (ent : Entity)
    (hm : ent ∈ s.entities) (hact : ent.active = true)
    (hplat : ent.hasTag "platform" = true) : ent.id ∈ activePlatformIds s := by
  unfold activePlatformIds
  exact List.mem_map_of_mem Entity.id
    (List.mem_filter.mpr ⟨hm, by rw [hact, hplat]; rfl⟩)

/-- C9: every collectible entity created by loadLevel carries both the
collectible and the platform tag (in fact every loadLevel entity carries one
of the four fixed tag lists, and collectible implies platform); and every
platform-tagged entity of a scene is partitioned with the platforms by
Scene.update: Physics.update is never applied to it and the whole pass
leaves the entity record (position included) untouched, while its id is in
the platform list used as the collision-target set for the non-platform
entities. -/
theorem collectible_platform_partition (g : Engine) (i : Nat)
    (hup : g.scene.isUpdating = false) :
    (∀ x ∈ (Engine.loadLevel g i).scene.entities,
      x.hasTag "collectible" = true → x.hasTag "platform" = true)
    ∧ (∀ (s : Scene) (dt : ℚ) (ent : Entity),
      s.entitiesToAdd = [] → s.entitiesToRemove = [] →
      (s.entities.map Entity.id).Nodup → ent ∈ s.entities →
      ent.hasTag "platform" = true →
      entGet (Scene.update noHooks dt s).entities ent.id = some ent
      ∧ (ent.active = true → ent.id ∈ activePlatformIds s)) := by
  constructor
  · intro x hx hcol
    rcases loadLevel_tags g i hup x hx with ht | ht | ht | ht
    · rw [Entity.hasTag, ht] at hcol
      simp at hcol
    · rw [Entity.hasTag, ht] at hcol
      simp at hcol
    · rw [Entity.hasTag, ht]
      rfl
    · rw [Entity.hasTag, ht] at hcol
      simp at hcol
  · intro s dt ent h2 h3 hnd hm hplat
    constructor
    · rw [sceneUpdate_noHooks dt s h2 h3]
      rw [show ({ s with
          entities := physicsPass s.physics (activeOtherIds s) (activePlatformIds s) s.entities,
          entitiesToAdd := ([] : List Entity), entitiesToRemove := ([] : List String),
          isUpdating := false } : Scene).entities =
        physicsPass s.physics (activeOtherIds s) (activePlatformIds s) s.entities from rfl]
      rw [entGet_physicsPass_not_mem s.physics (activeOtherIds s) (activePlatformIds s)
        s.entities ent.id (platform_id_not_in_activeOtherIds s ent hm hplat hnd)]
      exact entGet_mem_nodup s.entities ent hm hnd
    · intro hact
      exact platform_id_in_activePlatformIds s ent hm hact hplat

/-- Engine with one level and one collectible, for the partition witness. -/
def c9Engine : Engine :=
  { scene := {}, params := { world := some { levels := [{}] }, collectibles := [{}] } }

/-- Concrete platform entity left untouched by the physics pass. -/
def c9Plat : Entity := { id := "plat", x := 0, y := 10, width := 50, height := 5, tags := ["platform"] }

/-- Concrete non-platform entity so the pass is not vacuous. -/
def c9Ball : Entity := { id := "ball", x := 100, y := 0, width := 5, height := 5 }

/-- Concrete scene for the partition witness. -/
def c9Scene : Scene := { entities := [c9Plat, c9Ball] }

/-- Witness for C9 at a concrete scene: the platform-tagged entity is
untouched by Scene.update and sits in the platform partition. -/
theorem collectible_platform_partition_witness :
    entGet (Scene.update noHooks 0 c9Scene).entities "plat" = some c9Plat
    ∧ "plat" ∈ activePlatformIds c9Scene := by
  have h := (collectible_platform_partition c9Engine 0 rfl).2 c9Scene 0 c9Plat rfl rfl
    (by decide) (by simp [c9Scene]) rfl
  exact ⟨h.1, h.2 rfl⟩

theorem entGet_entSet_self (m : List Entity) (e : Entity) :
    entGet (entSet m e) e.id = some e := by
  unfold entSet entGet
  split
  · rename_i hany
    induction m with
    | nil => simp at hany
    | cons x xs ih =>
      by_cases hx : x.id = e.id
      · simp [List.find?_cons, hx]
      · simp only [List.map_cons, if_neg hx, List.find?_cons]
        rw [decide_eq_false hx]
        simp only [List.any_cons] at hany
        rw [decide_eq_false hx] at hany
        simpa using ih (by simpa using hany)
  · induction m with
    | nil => simp [List.find?_cons]
    | cons x xs ih =>
      rename_i hany
      by_cases hx : x.id = e.id
      · exact absurd (by simp [List.any_cons, hx]) hany
      · simp only [List.cons_append, List.find?_cons]
        rw [decide_eq_false hx]
        exact ih (by
          intro hc
          exact hany (by simp only [List.any_cons]; rw [decide_eq_false hx]; simpa using hc))

/-- C8: on an overlapping contact between the player and an active enemy,
the defeat branch (player moving downward with its bottom above the enemy's
vertical midpoint) deactivates and hides the enemy, sets the player's
vertical velocity to exactly -7 and adds exactly 50 to the score; any other
overlapping contact leaves the enemy active and untouched and resets the
player to the spawn point with both velocity components 0, the score
unchanged; both branches play the hit sound. -/
theorem enemy_collision_rules (g : Engine) (pid eid : String) (player enemy : Entity)
    (pp : PlayerParams)
    (hne : ¬ pid = eid)
    (hp : entGet g.scene.entities pid = some player)
    (he : entGet g.scene.entities eid = some enemy)
    (hpp : g.params.player = some pp)
    (hact : enemy.active = true)
    (hcol : engCheckCollision player enemy = true) :
    (0 < player.velocityY ∧ player.y + player.height < enemy.y + enemy.height / 2 →
      ∃ g', enemyRule pid g eid = some g'
        ∧ entGet g'.scene.entities eid = some { enemy with active := false, visible := false }
        ∧ entGet g'.scene.entities pid = some { player with velocityY := -7 }
        ∧ g'.score = g.score + 50
        ∧ g'.collectedItems = g.collectedItems
        ∧ g'.soundLog = g.soundLog ++ ["hit"])
    ∧ (¬(0 < player.velocityY ∧ player.y + player.height < enemy.y + enemy.height / 2) →
      ∃ g', enemyRule pid g eid = some g'
        ∧ entGet g'.scene.entities eid = some enemy
        ∧ entGet g'.scene.entities pid = some { player with x := jsOr pp.startX 100, y := jsOr pp.startY 100, velocityX := 0, velocityY := 0 }
        ∧ g'.score = g.score
        ∧ g'.collectedItems = g.collectedItems
        ∧ g'.soundLog = g.soundLog ++ ["hit"]) := by
  have hpid : player.id = pid := entGet_some_id _ _ _ hp
  have heid : enemy.id = eid := entGet_some_id _ _ _ he
  constructor
  · intro hbr
    unfold enemyRule
    rw [he, hp]
    simp only []
    rw [if_pos (show enemy.active = true ∧ engCheckCollision player enemy = true from ⟨hact, hcol⟩)]
    rw [if_pos hbr]
    unfold updateEntityInScene
    rw [he]
    simp only []
    have hids : ({ enemy with active := false, visible := false } : Entity).id = eid := heid
    have hget2 : entGet (entSet g.scene.entities { enemy with active := false, visible := false }) pid = some player := by
      rw [entGet_entSet_ne _ _ _ (by rw [hids]; intro hh; exact hne hh.symm)]
      exact hp
    rw [hget2]
    simp only [Engine.playSound]
    refine ⟨_, rfl, ?_, ?_, rfl, rfl, rfl⟩
    · rw [entGet_entSet_ne _ _ _ (by
        rw [show ({ player with velocityY := -7 } : Entity).id = pid from hpid]
        exact hne)]
      rw [show eid = ({ enemy with active := false, visible := false } : Entity).id from hids.symm]
      exact entGet_entSet_self _ _
    · rw [show pid = ({ player with velocityY := -7 } : Entity).id from hpid.symm]
      exact entGet_entSet_self _ _
  · intro hbr
    unfold enemyRule
    rw [he, hp]
    simp only []
    rw [if_pos (show enemy.active = true ∧ engCheckCollision player enemy = true from ⟨hact, hcol⟩)]
    rw [if_neg hbr]
    rw [hpp]
    unfold updateEntityInScene
    rw [hp]
    simp only [Engine.playSound]
    have hidp : ({ player with x := jsOr pp.startX 100, y := jsOr pp.startY 100, velocityX := 0, velocityY := 0 } : Entity).id = pid := hpid
    refine ⟨_, rfl, ?_, ?_, rfl, rfl, rfl⟩
    · rw [entGet_entSet_ne _ _ _ (by rw [hidp]; exact hne)]
      exact he
    · rw [show pid = ({ player with x := jsOr pp.startX 100, y := jsOr pp.startY 100, velocityX := 0, velocityY := 0 } : Entity).id from hidp.symm]
      exact entGet_entSet_self _ _

/-- Concrete player falling onto the enemy's top half. -/
def c8Player : Entity := { id := "p", x := 0, y := 0, width := 10, height := 10, velocityY := 5, tags := ["player"] }

/-- Concrete active enemy overlapped by the player. -/
def c8Enemy : Entity := { id := "e", x := 0, y := 8, width := 32, height := 32, tags := ["enemy"] }

/-- Concrete engine for the enemy-defeat witness. -/
def c8Engine : Engine :=
  { scene := { entities := [c8Player, c8Enemy] }, params := { player := some {} } }

/-- Witness for C8: the concrete stomp defeats the enemy, bounces the player
at -7 and adds 50 to the score. -/
theorem enemy_collision_rules_witness :
    ∃ g', enemyRule "p" c8Engine "e" = some g'
      ∧ entGet g'.scene.entities "e" = some { c8Enemy with active := false, visible := false }
      ∧ entGet g'.scene.entities "p" = some { c8Player with velocityY := -7 }
      ∧ g'.score = c8Engine.score + 50
      ∧ g'.collectedItems = c8Engine.collectedItems
      ∧ g'.soundLog = c8Engine.soundLog ++ ["hit"] :=
  (enemy_collision_rules c8Engine "p" "e" c8Player c8Enemy {} (by decide) rfl rfl rfl rfl
    (by simp only [engCheckCollision, c8Player, c8Enemy]; norm_num)).1
    ⟨by norm_num [c8Player], by norm_num [c8Player, c8Enemy]⟩

theorem updateEntityInScene_lt (g : Engine) (i : String) (f : Entity → Entity) :
    (updateEntityInScene g i f).levelTransitioning = g.levelTransitioning := by
  unfold updateEntityInScene
  cases entGet g.scene.entities i <;> rfl

theorem playSound_lt (g : Engine) (s : String) :
    (g.playSound s).levelTransitioning = g.levelTransitioning := rfl

theorem platformTick_lt (hostSin hostMod : ℚ → ℚ) (dt : ℚ) (platIds : List String)
    (g : Engine) :
    (platformTick hostSin hostMod dt platIds g).levelTransitioning = g.levelTransitioning := rfl

theorem playerMoveStep_lt (inputs : List String) (pid : String) (g : Engine) :
    (playerMoveStep inputs pid g).levelTransitioning = g.levelTransitioning :=
  updateEntityInScene_lt g pid _

theorem foldl_preserves_lt (f : Engine → String → Engine)
    (hf : ∀ g2 i, (f g2 i).levelTransitioning = g2.levelTransitioning)
    (l : List String) (g : Engine) :
    (l.foldl f g).levelTransitioning = g.levelTransitioning := by
  induction l generalizing g with
  | nil => rfl
  | cons i is ih => rw [List.foldl_cons, ih, hf]

theorem foldlM_preserves_lt (f : Engine → String → Option Engine)
    (hf : ∀ g2 i g3, f g2 i = some g3 → g3.levelTransitioning = g2.levelTransitioning)
    (l : List String) (g g' : Engine) (h : l.foldlM f g = some g') :
    g'.levelTransitioning = g.levelTransitioning := by
  induction l generalizing g with
  | nil =>
    simp only [List.foldlM_nil] at h
    cases h
    rfl
  | cons i is ih =>
    rw [List.foldlM_cons] at h
    cases hfi : f g i with
    | none => rw [hfi] at h; cases h
    | some g2 =>
      rw [hfi] at h
      have h2 : is.foldlM f g2 = some g' := h
      rw [ih g2 h2, hf g i g2 hfi]

theorem markTempPlatforms_lt (pid : String) (platIds : List String) (g : Engine) :
    (markTempPlatforms pid platIds g).levelTransitioning = g.levelTransitioning := by
  unfold markTempPlatforms
  apply foldl_preserves_lt
  intro g2 i
  cases c1 : entGet g2.scene.entities i with
  | none => rfl
  | some plat =>
    cases c2 : entGet g2.scene.entities pid with
    | none => rfl
    | some player =>
      simp only []
      split
      · exact updateEntityInScene_lt g2 i _
      · rfl

theorem playerJumpStep_lt (inputs : List String) (pid : String) (platIds : List String)
    (g : Engine) :
    (playerJumpStep inputs pid platIds g).levelTransitioning = g.levelTransitioning := by
  unfold playerJumpStep
  cases entGet g.scene.entities pid with
  | none => rfl
  | some player =>
    simp only []
    split
    · rw [markTempPlatforms_lt]
      exact updateEntityInScene_lt g pid _
    · rfl

theorem checkLevelCompletion_frame (g g' : Engine) (h : g.checkLevelCompletion = some g') :
    g'.scene = g.scene ∧ g'.currentLevelIndex = g.currentLevelIndex
    ∧ g'.levelTransitioning = g.levelTransitioning ∧ g'.score = g.score
    ∧ g'.collectedItems = g.collectedItems ∧ g'.totalCollectibles = g.totalCollectibles
    ∧ g'.gameCompleted = g.gameCompleted ∧ g'.params = g.params := by
  cases hw : g.params.world with
  | none => simp [Engine.checkLevelCompletion, hw] at h
  | some w =>
    cases hl : w.levels.get? g.currentLevelIndex with
    | none =>
      simp only [Engine.checkLevelCompletion, hw, hl] at h
      cases h
    | some level =>
      simp only [Engine.checkLevelCompletion, hw, hl] at h
      split at h <;> cases h <;> exact ⟨rfl, rfl, rfl, rfl, rfl, rfl, rfl, rfl⟩

theorem collectibleRule_lt (pid : String) (g : Engine) (i : String) (g' : Engine)
    (h : collectibleRule pid g i = some g') :
    g'.levelTransitioning = g.levelTransitioning := by
  unfold collectibleRule at h
  cases c1 : entGet g.scene.entities i with
  | none => rw [c1] at h; cases h; rfl
  | some c =>
    cases c2 : entGet g.scene.entities pid with
    | none => rw [c1, c2] at h; cases h; rfl
    | some player =>
      rw [c1, c2] at h
      simp only [] at h
      split at h
      · have hfr := (checkLevelCompletion_frame _ _ h).2.2.1
        rw [hfr]
        split
        all_goals first
          | (split <;> exact updateEntityInScene_lt g i _)
          | exact updateEntityInScene_lt g i _
      · cases h; rfl

theorem collectibleStep_lt (pid : String) (g g' : Engine)
    (h : collectibleStep pid g = some g') :
    g'.levelTransitioning = g.levelTransitioning := by
  unfold collectibleStep at h
  exact foldlM_preserves_lt _ (fun g2 i g3 hh => collectibleRule_lt pid g2 i g3 hh) _ g g' h

theorem enemyRule_lt (pid : String) (g : Engine) (i : String) (g' : Engine)
    (h : enemyRule pid g i = some g') :
    g'.levelTransitioning = g.levelTransitioning := by
  unfold enemyRule at h
  cases c1 : entGet g.scene.entities i with
  | none => rw [c1] at h; cases h; rfl
  | some enemy =>
    cases c2 : entGet g.scene.entities pid with
    | none => rw [c1, c2] at h; cases h; rfl
    | some player =>
      rw [c1, c2] at h
      simp only [] at h
      split at h
      · split at h
        · cases h
          exact (updateEntityInScene_lt (updateEntityInScene g i _) pid _).trans
            (updateEntityInScene_lt g i _)
        · cases hpp : g.params.player with
          | none => rw [hpp] at h; cases h
          | some pp =>
            rw [hpp] at h
            cases h
            exact updateEntityInScene_lt g pid _
      · cases h; rfl

theorem enemyStep_lt (pid : String) (g g' : Engine) (h : enemyStep pid g = some g') :
    g'.levelTransitioning = g.levelTransitioning := by
  unfold enemyStep at h
  exact foldlM_preserves_lt _ (fun g2 i g3 hh => enemyRule_lt pid g2 i g3 hh) _ g g' h

theorem fallCheckStep_lt (pid : String) (g g' : Engine) (h : fallCheckStep pid g = some g') :
    g'.levelTransitioning = g.levelTransitioning := by
  unfold fallCheckStep at h
  cases c1 : entGet g.scene.entities pid with
  | none => rw [c1] at h; cases h; rfl
  | some player =>
    rw [c1] at h
    simp only [] at h
    cases hw : g.params.world with
    | none => rw [hw] at h; cases h
    | some w =>
      rw [hw] at h
      simp only [] at h
      split at h
      · cases hpp : g.params.player with
        | none => rw [hpp] at h; cases h
        | some pp =>
          rw [hpp] at h
          cases h
          exact updateEntityInScene_lt g pid _
      · cases h; rfl

theorem ruleChain_lt (inputs : List String) (pid : String) (platIds : List String)
    (g g' : Engine) (h : ruleChain inputs pid platIds g = some g') :
    g'.levelTransitioning = g.levelTransitioning := by
  simp only [ruleChain] at h
  cases h5 : collectibleStep pid (playerJumpStep inputs pid platIds (playerMoveStep inputs pid g)) with
  | none => rw [h5] at h; simp at h
  | some g5 =>
    rw [h5] at h
    have hb : (enemyStep pid g5).bind (fun g6 => fallCheckStep pid g6) = some g' := h
    cases h6 : enemyStep pid g5 with
    | none => rw [h6] at hb; simp at hb
    | some g6 =>
      rw [h6] at hb
      have hc : fallCheckStep pid g6 = some g' := hb
      rw [fallCheckStep_lt pid g6 g' hc, enemyStep_lt pid g5 g6 h6,
        collectibleStep_lt pid _ g5 h5, playerJumpStep_lt, playerMoveStep_lt]

theorem enemyAIStep_lt (g : Engine) :
    (enemyAIStep g).levelTransitioning = g.levelTransitioning := by
  unfold enemyAIStep
  apply foldl_preserves_lt
  intro g2 i
  cases entGet g2.scene.entities i with
  | none => rfl
  | some en =>
    simp only []
    split
    · exact updateEntityInScene_lt g2 i _
    · rfl

theorem exitCheck_flip (pid : String) (g g' : Engine)
    (h : exitCheckStep pid g = some g') (h0 : g.levelTransitioning = false)
    (h1 : g'.levelTransitioning = true) :
    ∃ player w wd, entGet g.scene.entities pid = some player
      ∧ g.params.world = some w ∧ w.width = some wd
      ∧ wd - player.width * 2 < player.x := by
  cases hpl : entGet g.scene.entities pid with
  | none =>
    simp only [exitCheckStep, hpl] at h
    cases h
    rw [h0] at h1
    cases h1
  | some player =>
    cases hw : g.params.world with
    | none =>
      simp only [exitCheckStep, hpl, hw] at h
      cases h
    | some w =>
      cases hwd : w.width with
      | none =>
        simp only [exitCheckStep, hpl, hw, hwd] at h
        rw [if_neg (by simp)] at h
        cases h
        rw [h0] at h1
        cases h1
      | some wd =>
        simp only [exitCheckStep, hpl, hw, hwd] at h
        split at h
        · rename_i hcond
          exact ⟨player, w, wd, rfl, rfl, hwd, of_decide_eq_true hcond⟩
        · cases h
          rw [h0] at h1
          cases h1

/-- The frame prefix of engineUpdate up to and including Scene.update:
platform kinematics/decay on the captured platform list, then the scene
pass. -/
def afterScenePhase (hostSin hostMod : ℚ → ℚ) (dt : ℚ) (g : Engine) : Engine :=
  let platIds := (g.scene.getEntitiesByTag "platform").map Entity.id
  let g1 := platformTick hostSin hostMod dt platIds g
  { g1 with scene := Scene.update noHooks dt g1.scene }

theorem engineUpdate_eq (hostSin hostMod : ℚ → ℚ) (inputs : List String) (dt : ℚ)
    (g : Engine) :
    engineUpdate hostSin hostMod inputs dt g =
      if g.levelTransitioning = true then some g
      else
        match ((afterScenePhase hostSin hostMod dt g).scene.getEntitiesByTag "player").map
            Entity.id with
        | [] => some (enemyAIStep (afterScenePhase hostSin hostMod dt g))
        | pid :: _ =>
          (ruleChain inputs pid ((g.scene.getEntitiesByTag "platform").map Entity.id)
            (afterScenePhase hostSin hostMod dt g)).bind (fun g7 =>
              (exitCheckStep pid g7).bind (fun g8 => some (enemyAIStep g8))) := rfl

/-- C10: checkLevelCompletion leaves the level index, the transition flag,
the score, the collected counter and every entity of the active scene
unchanged (it only logs and plays a sound; its result differs from its input
at most in the sound log); and within one engineUpdate frame the transition
flag can be raised only by the separate exit rule, which fires only when the
player's x exceeds world.width minus twice the player's width at the
exit-check point. -/
theorem checkLevelCompletion_pure (g : Engine) (w : WorldParams) (level : LevelParams)
    (hw : g.params.world = some w)
    (hl : w.levels.get? g.currentLevelIndex = some level) :
    (∃ g', g.checkLevelCompletion = some g'
      ∧ g'.scene = g.scene
      ∧ g'.currentLevelIndex = g.currentLevelIndex
      ∧ g'.levelTransitioning = g.levelTransitioning
      ∧ g'.score = g.score
      ∧ g'.collectedItems = g.collectedItems)
    ∧ (∀ (hostSin hostMod : ℚ → ℚ) (inputs : List String) (dt : ℚ) (g1 g2 : Engine),
      engineUpdate hostSin hostMod inputs dt g1 = some g2 →
      g1.levelTransitioning = false → g2.levelTransitioning = true →
      ∃ pid g7 player w2 wd,
        ruleChain inputs pid ((g1.scene.getEntitiesByTag "platform").map Entity.id)
          (afterScenePhase hostSin hostMod dt g1) = some g7
        ∧ entGet g7.scene.entities pid = some player
        ∧ g7.params.world = some w2 ∧ w2.width = some wd
        ∧ wd - player.width * 2 < player.x) := by
  constructor
  · simp only [Engine.checkLevelCompletion, hw, hl]
    split
    · exact ⟨g.playSound "collect", rfl, rfl, rfl, rfl, rfl, rfl⟩
    · exact ⟨g, rfl, rfl, rfl, rfl, rfl, rfl⟩
  · intro hostSin hostMod inputs dt g1 g2 hupd hlt0 hlt1
    rw [engineUpdate_eq] at hupd
    rw [hlt0] at hupd
    rw [if_neg (by simp)] at hupd
    cases hply : ((afterScenePhase hostSin hostMod dt g1).scene.getEntitiesByTag "player").map
        Entity.id with
    | nil =>
      rw [hply] at hupd
      cases hupd
      rw [enemyAIStep_lt] at hlt1
      have hra : (afterScenePhase hostSin hostMod dt g1).levelTransitioning
          = g1.levelTransitioning := rfl
      rw [hra, hlt0] at hlt1
      cases hlt1
    | cons pid rest =>
      rw [hply] at hupd
      have hupd2 : (ruleChain inputs pid ((g1.scene.getEntitiesByTag "platform").map Entity.id)
          (afterScenePhase hostSin hostMod dt g1)).bind (fun g7 =>
            (exitCheckStep pid g7).bind (fun g8 => some (enemyAIStep g8))) = some g2 := hupd
      cases hrc : ruleChain inputs pid ((g1.scene.getEntitiesByTag "platform").map Entity.id)
          (afterScenePhase hostSin hostMod dt g1) with
      | none => rw [hrc] at hupd2; simp at hupd2
      | some g7 =>
        rw [hrc] at hupd2
        have hb : (exitCheckStep pid g7).bind (fun g8 => some (enemyAIStep g8)) = some g2 := hupd2
        cases hec : exitCheckStep pid g7 with
        | none => rw [hec] at hb; simp at hb
        | some g8 =>
          rw [hec] at hb
          have hg2 : some (enemyAIStep g8) = some g2 := hb
          cases hg2
          have h8 : g8.levelTransitioning = true := by
            rw [← enemyAIStep_lt g8]; exact hlt1
          have h7 : g7.levelTransitioning = false := by
            rw [ruleChain_lt _ _ _ _ _ hrc]
            exact hlt0
          obtain ⟨player, w2, wd, hpl2, hw2, hwd2, hclt⟩ := exitCheck_flip pid g7 g8 hec h7 h8
          exact ⟨pid, g7, player, w2, wd, hrc, hpl2, hw2, hwd2, hclt⟩

/-- Engine with a valid current level for the completion-check witness. -/
def c10Engine : Engine := { scene := {}, params := { world := some { levels := [{}] } } }

/-- Witness for C10 at a concrete engine: the completion check runs without
throwing and changes neither the scene nor the flag, score or counter. -/
theorem checkLevelCompletion_pure_witness :
    ∃ g', Engine.checkLevelCompletion c10Engine = some g'
      ∧ g'.scene = c10Engine.scene
      ∧ g'.levelTransitioning = c10Engine.levelTransitioning
      ∧ g'.score = c10Engine.score := by
  obtain ⟨g', h1, h2, _, h4, h5, _⟩ :=
    (checkLevelCompletion_pure c10Engine { levels := [{}] } {} rfl rfl).1
  exact ⟨g', h1, h2, h4, h5⟩
